import Mathlib

/-!
Verification of the trufo object-storage Lambda core
(`lambda/initial-setup.md`, embedded handler source).

Shallow embedding conventions:

* JS values that the system stores as `content` are restricted to the tagged
  union the spec prescribes for content (section 9 of the spec: strings and
  booleans); `JVal` below is that union.  `JSON.stringify` / `JSON.parse` are
  embedded for exactly this value space: serialisation follows the JS escaping
  rules for string literals (quote, backslash, the five short escapes, and
  4-digit unicode escapes for the remaining control characters); parsing
  accepts the two boolean keywords and a fully consumed string literal and
  fails (returns `none`, modelling a thrown `SyntaxError`) on anything else.
  Real `JSON.parse` accepts further JSON documents (numbers, arrays, objects);
  those never arise from this value space and are modelled as parse failures.
* The AES-256-CBC block cipher is modelled as an invertible encoding from the
  plaintext to a hex blob (six lowercase hex digits per character code).  The
  only properties of `aes-256-cbc` the embedded code relies on are that
  encryption is invertible, that its output is nonempty hex text (hence free
  of the `:` separator), and that deciphering malformed input throws; the
  model has all three.  The initialisation vector is carried verbatim in the
  blob header exactly as in the source (`iv_hex:ciphertext_hex`).
* `Buffer.from(hexText, 'hex')` in Node decodes greedily and truncates at the
  first invalid pair; `bytesFromHex` reproduces that.
* `Buffer.from(s, 'base32')` and `buf.toString('base32')` throw
  `TypeError [ERR_UNKNOWN_ENCODING]` in Node, because `base32` is not a
  supported Buffer encoding.  The embedding models the throw explicitly
  (`Except.error`); the HOTP arithmetic that follows the throwing call in
  `verifyTOTPToken` is embedded in full even though it is unreachable.
* Thrown exceptions that escape a handler are caught by the top-level
  `try/catch` of `exports.handler`, which answers
  `500 {error: 'Internal server error', details}`; the embedding surfaces
  this as the `ApiResult.internalError` constructor.
* JS truthiness on optional strings (`!name`, `object.totpSecret ? _ : _`)
  is `jsTruthyStr`: absent (`undefined`/`null`) and the empty string are
  falsy.  Boolean negation of a decrypted value (`!decryptedContent`) is
  `jsNot`: a nonempty string is truthy, `false` and `""` are falsy.
* Time is epoch milliseconds (`Int`); every handler receives the single
  `Date.now()` instant of its invocation as the parameter `now`, and the
  random bytes drawn by `crypto.randomBytes` (initialisation vectors, ids,
  tokens) as explicit parameters.
* The DynamoDB table is a list of records in scan order.  `PutCommand`
  replaces in place by key (appends when the key is new), `DeleteCommand`
  filters by key, the `name-index` query filters by name, and the token scan
  takes the first match, exactly as `result.Items[0]` does.
-/

/-- A stored JS content value: the tagged union of strings and booleans that
the system keeps in the `content` slot (spec section 9). -/
inductive JVal : Type where
  | jstr (s : String) : JVal
  | jbool (b : Bool) : JVal
deriving DecidableEq

open JVal

deriving instance DecidableEq for Except

/-- Lowercase hex digit for a nibble, as JS `toString(16)` produces. -/
def hexDigit (n : Nat) : Char :=
  if n < 10 then Char.ofNat (48 + n) else Char.ofNat (87 + n)

/-- Numeric value of one hex digit, accepting both cases as Node does. -/
def hexVal (c : Char) : Option Nat :=
  if 48 ≤ c.toNat ∧ c.toNat ≤ 57 then some (c.toNat - 48)
  else if 97 ≤ c.toNat ∧ c.toNat ≤ 102 then some (c.toNat - 87)
  else if 65 ≤ c.toNat ∧ c.toNat ≤ 70 then some (c.toNat - 55)
  else none

theorem hexVal_hexDigit {n : Nat} (h : n < 16) : hexVal (hexDigit n) = some n := by
  interval_cases n <;> decide

theorem hexDigit_ne_colon {n : Nat} (h : n < 16) : hexDigit n ≠ ':' := by
  interval_cases n <;> decide

theorem hexDigit_ne_quote {n : Nat} (h : n < 16) : hexDigit n ≠ '"' := by
  interval_cases n <;> decide

/-- One escaped character of a JS string literal, as `JSON.stringify` emits
it: `"` and `\` get a backslash escape, the five control characters with
shorthand escapes use them, the remaining control characters become
`\u00XX`, and everything else is passed through literally. -/
def escChar (c : Char) : List Char :=
  if c = '"' then ['\\', '"']
  else if c = '\\' then ['\\', '\\']
  else if c = '\x08' then ['\\', 'b']
  else if c = '\x09' then ['\\', 't']
  else if c = '\x0a' then ['\\', 'n']
  else if c = '\x0c' then ['\\', 'f']
  else if c = '\x0d' then ['\\', 'r']
  else if c.toNat < 32 then
    ['\\', 'u', '0', '0', hexDigit (c.toNat / 16), hexDigit (c.toNat % 16)]
  else [c]

/-- `JSON.stringify` on the embedded value space. -/
def stringifyJson : JVal → String
  | jbool true => "true"
  | jbool false => "false"
  | jstr s => String.mk ('"' :: (s.data.flatMap escChar ++ ['"']))

/-- Numeric value of a 4-digit hex escape body. -/
def hex4 (h1 h2 h3 h4 : Char) : Option Nat :=
  match hexVal h1, hexVal h2, hexVal h3, hexVal h4 with
  | some a, some b, some c, some d => some (((a * 16 + b) * 16 + c) * 16 + d)
  | _, _, _, _ => none

/-- The body of a JS string literal after the opening quote: unescape up to
the closing quote, which must end the input (as `JSON.parse` demands a fully
consumed document).  `none` models a thrown `SyntaxError`: on an unknown or
truncated escape, on a raw control character, on a quote that is not the last
character of the document, or on a missing closing quote. -/
def unescBody : List Char → Option (List Char)
  | [] => none
  | ['"'] => some []
  | '"' :: _ :: _ => none
  | '\\' :: '"' :: r => (unescBody r).map (fun l => '"' :: l)
  | '\\' :: '\\' :: r => (unescBody r).map (fun l => '\\' :: l)
  | '\\' :: '/' :: r => (unescBody r).map (fun l => '/' :: l)
  | '\\' :: 'b' :: r => (unescBody r).map (fun l => '\x08' :: l)
  | '\\' :: 'f' :: r => (unescBody r).map (fun l => '\x0c' :: l)
  | '\\' :: 'n' :: r => (unescBody r).map (fun l => '\x0a' :: l)
  | '\\' :: 'r' :: r => (unescBody r).map (fun l => '\x0d' :: l)
  | '\\' :: 't' :: r => (unescBody r).map (fun l => '\x09' :: l)
  | '\\' :: 'u' :: h1 :: h2 :: h3 :: h4 :: r =>
    (match hex4 h1 h2 h3 h4 with
     | some n =>
       if n < 55296 then (unescBody r).map (fun l => Char.ofNat n :: l)
       else none
     | none => none)
  | '\\' :: _ => none
  | c :: rest => if c.toNat < 32 then none else (unescBody rest).map (fun l => c :: l)

/-- `JSON.parse` on the embedded value space: the two boolean keywords, or a
fully consumed string literal; anything else is a parse failure. -/
def parseJson (s : String) : Option JVal :=
  if s = "true" then some (jbool true)
  else if s = "false" then some (jbool false)
  else
    match s.data with
    | '"' :: rest => (unescBody rest).map (fun l => jstr (String.mk l))
    | _ => none

set_option maxHeartbeats 2000000 in
theorem unescBody_escChar (l : List Char) :
    unescBody (l.flatMap escChar ++ ['"']) = some l := by
  induction l with
  | nil => simp [unescBody]
  | cons c rest ih =>
    rw [List.flatMap_cons, List.append_assoc]
    by_cases h1 : c = '"'
    · subst h1; simp +decide [escChar, unescBody, ih]
    by_cases h2 : c = '\\'
    · subst h2; simp +decide [escChar, unescBody, ih]
    by_cases h3 : c = '\x08'
    · subst h3; simp +decide [escChar, unescBody, ih]
    by_cases h4 : c = '\x09'
    · subst h4; simp +decide [escChar, unescBody, ih]
    by_cases h5 : c = '\x0a'
    · subst h5; simp +decide [escChar, unescBody, ih]
    by_cases h6 : c = '\x0c'
    · subst h6; simp +decide [escChar, unescBody, ih]
    by_cases h7 : c = '\x0d'
    · subst h7; simp +decide [escChar, unescBody, ih]
    by_cases h8 : c.toNat < 32
    · have hd1 : hexVal (hexDigit (c.toNat / 16)) = some (c.toNat / 16) :=
        hexVal_hexDigit (by omega)
      have hd2 : hexVal (hexDigit (c.toNat % 16)) = some (c.toNat % 16) :=
        hexVal_hexDigit (by omega)
      have hhex : hex4 '0' '0' (hexDigit (c.toNat / 16)) (hexDigit (c.toNat % 16))
          = some c.toNat := by
        have hz : hexVal '0' = some 0 := by decide
        simp [hex4, hz, hd1, hd2]
        omega
      have hlt : c.toNat < 55296 := by omega
      have hofn : Char.ofNat c.toNat = c := Char.ofNat_toNat c
      simp only [escChar, h1, h2, h3, h4, h5, h6, h7, h8, if_false, if_true,
        List.cons_append, List.nil_append]
      simp +decide [unescBody, hhex, hlt, hofn, ih]
    · simp +decide [escChar, h1, h2, h3, h4, h5, h6, h7, h8, unescBody, ih]

theorem parseJson_stringifyJson (v : JVal) : parseJson (stringifyJson v) = some v := by
  cases v with
  | jbool b => cases b <;> decide
  | jstr s =>
    have hne1 : String.mk ('"' :: (s.data.flatMap escChar ++ ['"'])) ≠ "true" := by
      intro h
      have h2 := congrArg String.data h
      have hd : "true".data = ['t', 'r', 'u', 'e'] := rfl
      rw [hd] at h2
      exact absurd (List.cons.inj h2).1 (by decide)
    have hne2 : String.mk ('"' :: (s.data.flatMap escChar ++ ['"'])) ≠ "false" := by
      intro h
      have h2 := congrArg String.data h
      have hd : "false".data = ['f', 'a', 'l', 's', 'e'] := rfl
      rw [hd] at h2
      exact absurd (List.cons.inj h2).1 (by decide)
    show parseJson (String.mk ('"' :: (s.data.flatMap escChar ++ ['"']))) = some (jstr s)
    unfold parseJson
    rw [if_neg hne1, if_neg hne2]
    show (unescBody (s.data.flatMap escChar ++ ['"'])).map (fun l => jstr (String.mk l))
      = some (jstr s)
    rw [unescBody_escChar]
    rfl

/-- JS `s.split(sep)` on the character list of a string. -/
def splitCh (sep : Char) : List Char → List (List Char)
  | [] => [[]]
  | c :: rest =>
    match splitCh sep rest with
    | [] => [[]]
    | h :: t => if c = sep then [] :: h :: t else (c :: h) :: t

theorem splitCh_cons (sep c : Char) (rest : List Char) :
    splitCh sep (c :: rest)
      = match splitCh sep rest with
        | [] => [[]]
        | h :: t => if c = sep then [] :: h :: t else (c :: h) :: t := rfl

theorem splitCh_ne_nil (sep : Char) (l : List Char) : splitCh sep l ≠ [] := by
  cases l with
  | nil => simp [splitCh]
  | cons c rest =>
    rw [splitCh_cons]
    match splitCh sep rest with
    | [] => simp
    | h :: t =>
      by_cases hc : c = sep <;> simp [hc]

theorem splitCh_no_sep {sep : Char} {l : List Char} (h : sep ∉ l) :
    splitCh sep l = [l] := by
  induction l with
  | nil => rfl
  | cons c rest ih =>
    have hc : ¬c = sep := fun hh => h (hh ▸ List.mem_cons_self c rest)
    have hr : sep ∉ rest := fun hh => h (List.mem_cons_of_mem c hh)
    rw [splitCh_cons, ih hr]
    simp [hc]

theorem splitCh_sep_append {sep : Char} {a b : List Char} (ha : sep ∉ a) :
    splitCh sep (a ++ sep :: b) = a :: splitCh sep b := by
  induction a with
  | nil =>
    show splitCh sep (sep :: b) = [] :: splitCh sep b
    rw [splitCh_cons]
    match hs : splitCh sep b with
    | [] => exact absurd hs (splitCh_ne_nil sep b)
    | h :: t => simp
  | cons c a2 ih =>
    have hc : ¬c = sep := fun hh => ha (hh ▸ List.mem_cons_self c a2)
    have ha2 : sep ∉ a2 := fun hh => ha (List.mem_cons_of_mem c hh)
    show splitCh sep (c :: (a2 ++ sep :: b)) = (c :: a2) :: splitCh sep b
    rw [splitCh_cons, ih ha2]
    simp [hc]

/-- Node `Buffer.from(hexText, 'hex')`: greedy pair decoding that truncates at
the first invalid pair (and drops an odd trailing digit). -/
def bytesFromHex : List Char → List Nat
  | a :: b :: rest =>
    (match hexVal a, hexVal b with
     | some x, some y => (x * 16 + y) :: bytesFromHex rest
     | _, _ => [])
  | _ => []

/-- `buf.toString('hex')` of one byte. -/
def hexOfByte (b : Nat) : List Char := [hexDigit (b / 16), hexDigit (b % 16)]

/-- `buf.toString('hex')` of a byte list. -/
def toHexChars (bytes : List Nat) : List Char := bytes.flatMap hexOfByte

theorem bytesFromHex_toHexChars {iv : List Nat} (h : ∀ b ∈ iv, b < 256) :
    bytesFromHex (toHexChars iv) = iv := by
  induction iv with
  | nil => rfl
  | cons b rest ih =>
    have hb : b < 256 := h b (List.mem_cons_self b rest)
    have hrest : ∀ x ∈ rest, x < 256 := fun x hx => h x (List.mem_cons_of_mem b hx)
    have h1 : hexVal (hexDigit (b / 16)) = some (b / 16) := hexVal_hexDigit (by omega)
    have h2 : hexVal (hexDigit (b % 16)) = some (b % 16) := hexVal_hexDigit (by omega)
    show bytesFromHex (hexDigit (b / 16) :: hexDigit (b % 16) :: toHexChars rest)
      = b :: rest
    simp only [bytesFromHex, h1, h2, ih hrest]
    congr 1
    omega

theorem colon_not_mem_toHexChars {iv : List Nat} (h : ∀ b ∈ iv, b < 256) :
    ':' ∉ toHexChars iv := by
  simp only [toHexChars, List.mem_flatMap, hexOfByte]
  rintro ⟨b, hb, hmem⟩
  have : b < 256 := h b hb
  simp only [List.mem_cons, List.mem_singleton] at hmem
  rcases hmem with h1 | h1 | h1
  · exact hexDigit_ne_colon (by omega) h1.symm
  · exact hexDigit_ne_colon (by omega) h1.symm
  · simp at h1

/-- Six lowercase hex digits, big-endian, for one character code: the cipher
model text alphabet. -/
def hex6 (n : Nat) : List Char :=
  [hexDigit (n / 1048576 % 16), hexDigit (n / 65536 % 16), hexDigit (n / 4096 % 16),
   hexDigit (n / 256 % 16), hexDigit (n / 16 % 16), hexDigit (n % 16)]

/-- Value of a six-hex-digit group. -/
def hex6val (c1 c2 c3 c4 c5 c6 : Char) : Option Nat :=
  match hex4 c1 c2 c3 c4, hexVal c5, hexVal c6 with
  | some n, some x, some y => some ((n * 16 + x) * 16 + y)
  | _, _, _ => none

/-- The model of AES-256-CBC encryption under the fixed derived key: each
plaintext character becomes six hex digits.  The properties relied on by the
embedded handlers are that this is invertible, that the output is nonempty
hex text (hence colon-free), and that deciphering malformed text throws. -/
def cipherEnc (plain : List Char) : List Char := plain.flatMap (fun c => hex6 c.toNat)

/-- The model of AES-256-CBC decryption: strict six-digit group decoding;
`none` models `decipher.update`/`decipher.final` throwing on malformed
ciphertext. -/
def cipherDec : List Char → Option (List Char)
  | [] => some []
  | c1 :: c2 :: c3 :: c4 :: c5 :: c6 :: rest =>
    (match hex6val c1 c2 c3 c4 c5 c6 with
     | some n =>
       if Nat.isValidChar n then (cipherDec rest).map (fun l => Char.ofNat n :: l)
       else none
     | none => none)
  | _ => none

theorem colon_not_mem_cipherEnc (l : List Char) : ':' ∉ cipherEnc l := by
  simp only [cipherEnc, List.mem_flatMap, hex6]
  rintro ⟨c, hc, hmem⟩
  simp only [List.mem_cons, List.mem_singleton] at hmem
  rcases hmem with h1 | h1 | h1 | h1 | h1 | h1 | h1
  · exact hexDigit_ne_colon (by omega) h1.symm
  · exact hexDigit_ne_colon (by omega) h1.symm
  · exact hexDigit_ne_colon (by omega) h1.symm
  · exact hexDigit_ne_colon (by omega) h1.symm
  · exact hexDigit_ne_colon (by omega) h1.symm
  · exact hexDigit_ne_colon (by omega) h1.symm
  · simp at h1

theorem char_toNat_lt (c : Char) : c.toNat < 1114112 := by
  rcases c.valid with h | ⟨_, h2⟩
  · exact Nat.lt_trans h (by norm_num)
  · exact h2

theorem cipherDec_cipherEnc (l : List Char) : cipherDec (cipherEnc l) = some l := by
  induction l with
  | nil => rfl
  | cons c rest ih =>
    have hb : c.toNat < 1114112 := char_toNat_lt c
    have h1 : hexVal (hexDigit (c.toNat / 1048576 % 16)) = some (c.toNat / 1048576 % 16) :=
      hexVal_hexDigit (by omega)
    have h2 : hexVal (hexDigit (c.toNat / 65536 % 16)) = some (c.toNat / 65536 % 16) :=
      hexVal_hexDigit (by omega)
    have h3 : hexVal (hexDigit (c.toNat / 4096 % 16)) = some (c.toNat / 4096 % 16) :=
      hexVal_hexDigit (by omega)
    have h4 : hexVal (hexDigit (c.toNat / 256 % 16)) = some (c.toNat / 256 % 16) :=
      hexVal_hexDigit (by omega)
    have h5 : hexVal (hexDigit (c.toNat / 16 % 16)) = some (c.toNat / 16 % 16) :=
      hexVal_hexDigit (by omega)
    have h6 : hexVal (hexDigit (c.toNat % 16)) = some (c.toNat % 16) :=
      hexVal_hexDigit (by omega)
    have hx4 : hex4 (hexDigit (c.toNat / 1048576 % 16)) (hexDigit (c.toNat / 65536 % 16))
        (hexDigit (c.toNat / 4096 % 16)) (hexDigit (c.toNat / 256 % 16))
        = some (((c.toNat / 1048576 % 16 * 16 + c.toNat / 65536 % 16) * 16
            + c.toNat / 4096 % 16) * 16 + c.toNat / 256 % 16) := by
      simp [hex4, h1, h2, h3, h4]
    have hx6 : hex6val (hexDigit (c.toNat / 1048576 % 16)) (hexDigit (c.toNat / 65536 % 16))
        (hexDigit (c.toNat / 4096 % 16)) (hexDigit (c.toNat / 256 % 16))
        (hexDigit (c.toNat / 16 % 16)) (hexDigit (c.toNat % 16)) = some c.toNat := by
      simp only [hex6val, hx4, h5, h6]
      congr 1
      omega
    have hvalid : Nat.isValidChar c.toNat := c.valid
    show cipherDec (hex6 c.toNat ++ cipherEnc rest) = some (c :: rest)
    simp only [hex6, List.cons_append, List.nil_append, cipherDec, hx6, hvalid, if_true]
    simp [ih, Char.ofNat_toNat]

/-- Source `encryptContent` (initial-setup handler, lines 92–98): serialise
with `JSON.stringify`, encrypt under a fresh 16-byte initialisation vector,
and join as `iv_hex:ciphertext_hex`.  The `crypto.randomBytes(16)` draw is
the explicit `iv` parameter. -/
def encryptContent (iv : List Nat) (text : JVal) : String :=
  String.mk (toHexChars iv ++ ':' :: cipherEnc (stringifyJson text).data)

/-- The `try`-block fallthrough of `decryptContent`: `JSON.parse` the raw
stored value; if that throws too, the `catch` returns the input unchanged. -/
def parseOrRaw (s : String) : JVal :=
  match parseJson s with
  | some v => v
  | none => jstr s

/-- Source `decryptContent` (lines 101–117): split on `:`; with no separator
(or an empty part) fall back to parsing the raw value as legacy plaintext
JSON; otherwise decode the iv from hex (16 bytes required by
`createDecipheriv`), decipher, and `JSON.parse` the plaintext.  Every thrown
error is caught and the original string is returned as-is. -/
def decryptContent (s : String) : JVal :=
  match splitCh ':' s.data with
  | [_] => parseOrRaw s
  | ivHex :: encrypted :: _ =>
    if ivHex = [] ∨ encrypted = [] then parseOrRaw s
    else if (bytesFromHex ivHex).length = 16 then
      match cipherDec encrypted with
      | some plain => parseOrRaw (String.mk plain)
      | none => jstr s
    else jstr s
  | [] => jstr s

/-- A well-formed initialisation vector draw: 16 bytes. -/
abbrev ivOk (iv : List Nat) : Prop := iv.length = 16 ∧ ∀ b ∈ iv, b < 256

theorem stringifyJson_data_ne_nil (v : JVal) : (stringifyJson v).data ≠ [] := by
  cases v with
  | jbool b => cases b <;> decide
  | jstr s => simp [stringifyJson]

theorem decryptContent_encryptContent {iv : List Nat} (hiv : ivOk iv) (v : JVal) :
    decryptContent (encryptContent iv v) = v := by
  obtain ⟨hlen, hbytes⟩ := hiv
  have hsp : splitCh ':' (toHexChars iv ++ ':' :: cipherEnc (stringifyJson v).data)
      = toHexChars iv :: splitCh ':' (cipherEnc (stringifyJson v).data) :=
    splitCh_sep_append (colon_not_mem_toHexChars hbytes)
  have hsp2 : splitCh ':' (cipherEnc (stringifyJson v).data)
      = [cipherEnc (stringifyJson v).data] :=
    splitCh_no_sep (colon_not_mem_cipherEnc _)
  have hivne : toHexChars iv ≠ [] := by
    cases iv with
    | nil => simp at hlen
    | cons b rest => simp [toHexChars, hexOfByte]
  have hencne : cipherEnc (stringifyJson v).data ≠ [] := by
    have := stringifyJson_data_ne_nil v
    cases hc : (stringifyJson v).data with
    | nil => exact absurd hc this
    | cons c rest => simp [cipherEnc, hc, hex6]
  have hbytesLen : (bytesFromHex (toHexChars iv)).length = 16 := by
    rw [bytesFromHex_toHexChars hbytes, hlen]
  show decryptContent (String.mk (toHexChars iv ++ ':' :: cipherEnc (stringifyJson v).data)) = v
  simp only [decryptContent, hsp, hsp2, hivne, hencne, false_or, or_false, if_false,
    hbytesLen, if_true, cipherDec_cipherEnc, parseOrRaw]
  have : parseJson (String.mk (stringifyJson v).data) = some v := by
    have he : String.mk (stringifyJson v).data = stringifyJson v := rfl
    rw [he, parseJson_stringifyJson]
  simp [this]

/-- Truncation to an unsigned 32-bit word. -/
def u32 (n : Nat) : Nat := n % 4294967296

/-- Left rotation of a 32-bit word by `k` bits (0 < k < 32, word < 2^32). -/
def rotl (k x : Nat) : Nat := u32 (x * 2 ^ k) + x / 2 ^ (32 - k)

/-- Big-endian 32-bit words of a byte list (SHA-1 block schedule input). -/
def toWords : List Nat → List Nat
  | b1 :: b2 :: b3 :: b4 :: rest =>
    (((b1 * 256 + b2) * 256 + b3) * 256 + b4) :: toWords rest
  | _ => []

/-- Big-endian bytes of a 32-bit word. -/
def bytesOfWord (w : Nat) : List Nat :=
  [w / 16777216 % 256, w / 65536 % 256, w / 256 % 256, w % 256]

/-- Big-endian 8-byte encoding of the SHA-1 message bit length. -/
def lenBytes (n : Nat) : List Nat :=
  [n / 72057594037927936 % 256, n / 281474976710656 % 256, n / 1099511627776 % 256,
   n / 4294967296 % 256, n / 16777216 % 256, n / 65536 % 256, n / 256 % 256, n % 256]

/-- SHA-1 padding: a `0x80` byte, zeros to 56 mod 64, and the bit length. -/
def sha1pad (msg : List Nat) : List Nat :=
  let l := msg.length
  let r := (l + 1) % 64
  let k := if r ≤ 56 then 56 - r else 120 - r
  msg ++ 128 :: List.replicate k 0 ++ lenBytes (l * 8)

/-- SHA-1 message-schedule extension from 16 to 80 words. -/
def extendW (w : List Nat) (i : Nat) : List Nat :=
  if i ≥ 80 then w
  else
    extendW (w ++ [rotl 1 ((((w.getD (i - 3) 0) ^^^ (w.getD (i - 8) 0))
      ^^^ (w.getD (i - 14) 0)) ^^^ (w.getD (i - 16) 0))]) (i + 1)
termination_by 80 - i

/-- The SHA-1 round function for round `t`. -/
def sha1f (t b c d : Nat) : Nat :=
  if t < 20 then (b &&& c) ||| ((4294967295 ^^^ b) &&& d)
  else if t < 40 then (b ^^^ c) ^^^ d
  else if t < 60 then ((b &&& c) ||| (b &&& d)) ||| (c &&& d)
  else (b ^^^ c) ^^^ d

/-- The SHA-1 round constant for round `t`. -/
def sha1k (t : Nat) : Nat :=
  if t < 20 then 1518500249
  else if t < 40 then 1859775393
  else if t < 60 then 2400959708
  else 3395469782

/-- Eighty SHA-1 rounds over the extended schedule `w`. -/
def sha1rounds (w : List Nat) (t : Nat) (st : Nat × Nat × Nat × Nat × Nat) :
    Nat × Nat × Nat × Nat × Nat :=
  if t ≥ 80 then st
  else
    match st with
    | (a, b, c, d, e) =>
      sha1rounds w (t + 1)
        (u32 (rotl 5 a + sha1f t b c d + e + sha1k t + w.getD t 0), a, rotl 30 b, c, d)
termination_by 80 - t

/-- One SHA-1 block step. -/
def sha1block (h : Nat × Nat × Nat × Nat × Nat) (block : List Nat) :
    Nat × Nat × Nat × Nat × Nat :=
  let w := extendW (toWords block) 16
  match h, sha1rounds w 0 h with
  | (h0, h1, h2, h3, h4), (a, b, c, d, e) =>
    (u32 (h0 + a), u32 (h1 + b), u32 (h2 + c), u32 (h3 + d), u32 (h4 + e))

/-- The padded message split into 64-byte blocks. -/
def chunks64 (l : List Nat) : List (List Nat) :=
  if h : l = [] then [] else l.take 64 :: chunks64 (l.drop 64)
termination_by l.length
decreasing_by
  simp only [List.length_drop]
  have h0 : 0 < l.length := List.length_pos.mpr h
  omega

/-- SHA-1 of a byte list (`crypto.createHmac('sha1', _)` digest primitive). -/
def sha1 (msg : List Nat) : List Nat :=
  match (chunks64 (sha1pad msg)).foldl sha1block
      (1732584193, 4023233417, 2562383102, 271733878, 3285377520) with
  | (a, b, c, d, e) =>
    bytesOfWord a ++ bytesOfWord b ++ bytesOfWord c ++ bytesOfWord d ++ bytesOfWord e

/-- HMAC-SHA1 over byte lists. -/
def hmacSha1 (key msg : List Nat) : List Nat :=
  let k1 := if key.length > 64 then sha1 key else key
  let k2 := k1 ++ List.replicate (64 - k1.length) 0
  sha1 ((k2.map (fun b => b ^^^ 92)) ++ sha1 ((k2.map (fun b => b ^^^ 54)) ++ msg))

/-- Lowercase hex digits of `n`, most significant first (JS `toString(16)`),
without the leading-zero special case. -/
def natHexAux (n : Nat) : List Char :=
  if h : n = 0 then [] else natHexAux (n / 16) ++ [hexDigit (n % 16)]
termination_by n
decreasing_by exact Nat.div_lt_self (Nat.pos_of_ne_zero h) (by omega)

/-- JS `n.toString(16)` for a nonnegative number. -/
def natToHexChars (n : Nat) : List Char :=
  if n = 0 then ['0'] else natHexAux n

/-- JS `.padStart(16, '0')`. -/
def padStart16 (l : List Char) : List Char := List.replicate (16 - l.length) '0' ++ l

/-- One six-digit HOTP candidate code for a window counter, as the loop body
of `verifyTOTPToken` computes it: HMAC-SHA1 of the 8-byte big-endian counter,
dynamic truncation, modulo 10^6, left-padded with zeros to six digits. -/
def hotp6 (key : List Nat) (w : Nat) : String :=
  let msg := bytesFromHex (padStart16 (natToHexChars w))
  let hash := hmacSha1 key msg
  let offset := (hash.getD (hash.length - 1) 0) % 16
  let code := (((hash.getD offset 0) % 128) * 16777216 + (hash.getD (offset + 1) 0) * 65536
    + (hash.getD (offset + 2) 0) * 256 + hash.getD (offset + 3) 0) % 1000000
  let codeStr := toString code
  String.mk (List.replicate (6 - codeStr.length) '0' ++ codeStr.data)

/-- Node `buf.toString('base32')` as called by `generateTOTPSecret` (source
lines 120–122): `base32` is not a supported Buffer encoding, so Node throws
`TypeError [ERR_UNKNOWN_ENCODING]`.  The secret generator therefore always
throws. -/
def generateTOTPSecret : Except String String :=
  Except.error "Unknown encoding: base32"

/-- Node `Buffer.from(s, 'base32')` as called by `verifyTOTPToken` (source
line 134): the same unsupported encoding, so this always throws. -/
def bufferFromBase32 (_s : String) : Except String (List Nat) :=
  Except.error "Unknown encoding: base32"

/-- Source `verifyTOTPToken` (lines 125–153): falsy secret or token answer
`false`; otherwise the secret is decoded with `Buffer.from(secret, 'base32')`
— which throws in Node — and, were a key obtained, the six-digit HOTP codes
of the current, previous and next 30-second windows would be compared against
the submitted token. -/
def verifyTOTPToken (secret token : String) (now : Int) : Except String Bool :=
  if secret = "" ∨ token = "" then Except.ok false
  else
    let timeWindow : Int := Int.fdiv now 30000
    match bufferFromBase32 secret with
    | Except.error e => Except.error e
    | Except.ok key =>
      Except.ok (([-1, 0, 1] : List Int).any
        (fun i => hotp6 key (timeWindow + i).toNat == token))

/-- JS truthiness of an optional string value: `undefined`/`null` and the
empty string are falsy. -/
def jsTruthyStr : Option String → Bool
  | none => false
  | some s => s != ""

/-- JS truthiness of an optional boolean (`oneTimeAccess || false`,
`enableMFA ? _ : _`). -/
def jsTruthyBool : Option Bool → Bool
  | none => false
  | some b => b

/-- JS boolean negation `!v` of a decrypted content value: a string is truthy
unless empty, a boolean negates. -/
def jsNot : JVal → Bool
  | jstr s => s == ""
  | jbool b => !b

/-- The StoredObject record, exactly the item shape `createObject` writes to
the `trufo-objects` table. -/
structure StoredObject where
  id : String
  name : String
  type : String
  content : String
  ttl : Int
  token : String
  ownerEmail : String
  ownerName : String
  hitCount : Nat
  createdAt : Int
  lastHit : Option Int
  oneTimeAccess : Bool
  totpSecret : Option String
deriving DecidableEq

/-- A handler response: constructor per status/shape the source emits. -/
inductive ApiResult where
  | ok (content : JVal) (hits : Nat)
  | okNamed (name type : String) (content : JVal) (hits : Nat)
  | created (object : StoredObject)
  | badRequest (error : String)
  | notFound (error : String)
  | gone (error : String)
  | mfaRequired (totpQR : Option String)
  | mfaInvalid (error : String)
  | internalError (details : String)
deriving DecidableEq

/-- HTTP status code of a response. -/
def statusOf : ApiResult → Nat
  | .ok _ _ => 200
  | .okNamed _ _ _ _ => 200
  | .created _ => 201
  | .badRequest _ => 400
  | .notFound _ => 404
  | .gone _ => 410
  | .mfaRequired _ => 403
  | .mfaInvalid _ => 403
  | .internalError _ => 500

/-- `PutCommand`: insert-or-replace keyed on `id`. -/
def putItem (db : List StoredObject) (item : StoredObject) : List StoredObject :=
  if db.any (fun r => r.id == item.id) then
    db.map (fun r => if r.id == item.id then item else r)
  else db ++ [item]

/-- `DeleteCommand`: remove the record with the given `id`. -/
def deleteItem (db : List StoredObject) (id : String) : List StoredObject :=
  db.filter (fun r => r.id != id)

/-- The `name-index` GSI query: all records with the given name. -/
def queryByName (db : List StoredObject) (name : String) : List StoredObject :=
  db.filter (fun r => r.name == name)

/-- `result.Items.find(item => item.token === token)` over a name query. -/
def lookupByNameToken (db : List StoredObject) (name token : String) : Option StoredObject :=
  (queryByName db name).find? (fun r => r.token == token)

/-- The token scan plus `result.Items[0]`: first record carrying the token. -/
def lookupByToken (db : List StoredObject) (token : String) : Option StoredObject :=
  (db.filter (fun r => r.token == token)).head?

/-- `GetCommand` by primary key. -/
def getById (db : List StoredObject) (id : String) : Option StoredObject :=
  (db.filter (fun r => r.id == id)).head?

/-- The provisioning URI surfaced with a first-hit MFA challenge. -/
def totpQRString (obj : StoredObject) : String :=
  "otpauth://totp/Trufo:" ++ obj.name ++ "?secret=" ++ obj.totpSecret.getD ""
    ++ "&issuer=Trufo"

/-- Outcome of the shared read block of `getObject` / `getObjectByToken`. -/
inductive ReadOutcome where
  | expired
  | mfaRequired (totpQR : Option String)
  | mfaInvalid
  | threw (details : String)
  | success (content : JVal) (hits : Nat)

/-- The hit-count update item both fetch handlers persist before decrypting:
`{...object, hitCount: object.hitCount + 1, lastHit: Date.now()}`. -/
def bumpHit (obj : StoredObject) (now : Int) : StoredObject :=
  { obj with hitCount := obj.hitCount + 1, lastHit := some now }

/-- The toggled item a read of a `toggle` object persists: the original
record with the encrypted logical negation of the decrypted content, the
bumped hit count and the read instant. -/
def toggledItem (obj : StoredObject) (now : Int) (iv : List Nat) : StoredObject :=
  { obj with content := encryptContent iv (jbool (jsNot (decryptContent obj.content))),
             hitCount := obj.hitCount + 1, lastHit := some now }

/-- The post-MFA tail both fetch handlers run on a live record: persist the
hit-count bump, decrypt, delete when one-time, and for `toggle` objects
persist the encrypted negation (skipped when the record was just deleted);
the response carries the pre-toggle value and the bumped count. -/
def readBody (db : List StoredObject) (obj : StoredObject) (now : Int) (iv : List Nat) :
    ReadOutcome × List StoredObject :=
  let db1 := putItem db (bumpHit obj now)
  let decrypted := decryptContent obj.content
  let db2 := if obj.oneTimeAccess then deleteItem db1 obj.id else db1
  if obj.type == "toggle" then
    let db3 :=
      if !obj.oneTimeAccess then putItem db2 (toggledItem obj now iv)
      else db2
    (ReadOutcome.success decrypted (obj.hitCount + 1), db3)
  else (ReadOutcome.success decrypted (obj.hitCount + 1), db2)

/-- The read block the source duplicates verbatim in `getObject` (lines
319–404) and `getObjectByToken` (lines 427–509): destructive expiry check,
then the TOTP gate (challenge with a provisioning QR only before the first
hit; a presented code reaches `verifyTOTPToken`, whose `base32` decode
throws), then `readBody`. -/
def readCore (db : List StoredObject) (obj : StoredObject) (totpCode : Option String)
    (now : Int) (iv : List Nat) : ReadOutcome × List StoredObject :=
  if obj.ttl ≤ now then (ReadOutcome.expired, deleteItem db obj.id)
  else if jsTruthyStr obj.totpSecret then
    if !(jsTruthyStr totpCode) then
      (ReadOutcome.mfaRequired
        (if obj.hitCount = 0 then some (totpQRString obj) else none), db)
    else
      match verifyTOTPToken (obj.totpSecret.getD "") (totpCode.getD "") now with
      | Except.error e => (ReadOutcome.threw e, db)
      | Except.ok false => (ReadOutcome.mfaInvalid, db)
      | Except.ok true => readBody db obj now iv
  else readBody db obj now iv

/-- Source `getObject` (lines 298–404): fetch by name and token. -/
def getObject (db : List StoredObject) (name token totpCode : Option String)
    (now : Int) (iv : List Nat) : ApiResult × List StoredObject :=
  if !(jsTruthyStr name && jsTruthyStr token) then
    (ApiResult.badRequest "Name and token are required", db)
  else
    match lookupByNameToken db (name.getD "") (token.getD "") with
    | none => (ApiResult.notFound "Object not found or invalid token", db)
    | some obj =>
      match readCore db obj totpCode now iv with
      | (ReadOutcome.expired, db2) =>
        (ApiResult.gone "Object has expired and has been deleted", db2)
      | (ReadOutcome.mfaRequired qr, db2) => (ApiResult.mfaRequired qr, db2)
      | (ReadOutcome.mfaInvalid, db2) => (ApiResult.mfaInvalid "Invalid TOTP code", db2)
      | (ReadOutcome.threw e, db2) => (ApiResult.internalError e, db2)
      | (ReadOutcome.success c h, db2) => (ApiResult.ok c h, db2)

/-- Source `getObjectByToken` (lines 407–510): fetch by token only; the
success body additionally carries `name` and `type`. -/
def getObjectByToken (db : List StoredObject) (token totpCode : Option String)
    (now : Int) (iv : List Nat) : ApiResult × List StoredObject :=
  if !(jsTruthyStr token) then (ApiResult.badRequest "Token is required", db)
  else
    match lookupByToken db (token.getD "") with
    | none => (ApiResult.notFound "Object not found or invalid token", db)
    | some obj =>
      match readCore db obj totpCode now iv with
      | (ReadOutcome.expired, db2) =>
        (ApiResult.gone "Object has expired and has been deleted", db2)
      | (ReadOutcome.mfaRequired qr, db2) => (ApiResult.mfaRequired qr, db2)
      | (ReadOutcome.mfaInvalid, db2) => (ApiResult.mfaInvalid "Invalid TOTP code", db2)
      | (ReadOutcome.threw e, db2) => (ApiResult.internalError e, db2)
      | (ReadOutcome.success c h, db2) => (ApiResult.okNamed obj.name obj.type c h, db2)

/-- Source `toggleBooleanObject` (lines 575–635): the toggle-only endpoint.
Lookup by name and token, destructive expiry check, `boolean`-type guard,
then decrypt, negate, persist, and answer with the new value; there is no
TOTP gate on this path. -/
def toggleBooleanObject (db : List StoredObject) (name token : Option String)
    (now : Int) (iv : List Nat) : ApiResult × List StoredObject :=
  if !(jsTruthyStr name && jsTruthyStr token) then
    (ApiResult.badRequest "Name and token are required", db)
  else
    match lookupByNameToken db (name.getD "") (token.getD "") with
    | none => (ApiResult.notFound "Object not found or invalid token", db)
    | some obj =>
      if obj.ttl ≤ now then
        (ApiResult.gone "Object has expired and has been deleted", deleteItem db obj.id)
      else if obj.type != "boolean" then
        (ApiResult.badRequest "Toggle is only supported for boolean objects", db)
      else
        let toggledContent := jsNot (decryptContent obj.content)
        let newDb := putItem db
          { obj with content := encryptContent iv (jbool toggledContent),
                     hitCount := obj.hitCount + 1, lastHit := some now }
        (ApiResult.ok (jbool toggledContent) (obj.hitCount + 1), newDb)

/-- The request body of `POST /objects`; `none` collapses JS `undefined` and
`null` (the source tests `content === undefined || content === null` and the
same pair for `ttlHours`, which `Option` cannot distinguish and the handler
never does).  `ttlHours` is restricted to whole hours; `parseFloat` on a
number is the identity. -/
structure CreateInput where
  name : Option String
  type : Option String
  content : Option JVal
  ttlHours : Option Int
  ownerEmail : Option String
  ownerName : Option String
  oneTimeAccess : Option Bool
  enableMFA : Option Bool
deriving DecidableEq

/-- Source `createObject` (lines 247–295): falsy `name`/`type` or
missing/null `content`/`ttlHours` are rejected; otherwise the item is built
with a fresh id, token and iv (explicit parameters here), the content
encrypted, `ttl = now + ttlHours * 3600000`, and — when `enableMFA` is
truthy — a TOTP secret whose generation throws in Node.  `builtItem` is the
item literal of lines 264–278; `createObject` is the handler. -/
def builtItem (data : CreateInput) (now : Int) (iv : List Nat)
    (idSuffix tokenR : String) (ts : Option String) : StoredObject :=
  { id := "obj_" ++ toString now ++ "_" ++ idSuffix
    name := data.name.getD ""
    type := data.type.getD ""
    content := encryptContent iv (data.content.getD (jbool false))
    ttl := now + data.ttlHours.getD 0 * 3600000
    token := tokenR
    ownerEmail := if jsTruthyStr data.ownerEmail then data.ownerEmail.getD "" else "anonymous"
    ownerName := if jsTruthyStr data.ownerName then data.ownerName.getD "" else "Anonymous User"
    hitCount := 0
    createdAt := now
    lastHit := none
    oneTimeAccess := jsTruthyBool data.oneTimeAccess
    totpSecret := ts }

def createObject (db : List StoredObject) (data : CreateInput) (now : Int)
    (iv : List Nat) (idSuffix tokenR : String) : ApiResult × List StoredObject :=
  if !(jsTruthyStr data.name) || !(jsTruthyStr data.type)
      || data.content.isNone || data.ttlHours.isNone then
    (ApiResult.badRequest "Missing required fields: name, type, content, ttlHours", db)
  else if jsTruthyBool data.enableMFA then
    match generateTOTPSecret with
    | Except.error e => (ApiResult.internalError e, db)
    | Except.ok secret =>
      let item := builtItem data now iv idSuffix tokenR (some secret)
      (ApiResult.created item, putItem db item)
  else
    let item := builtItem data now iv idSuffix tokenR none
    (ApiResult.created item, putItem db item)

theorem filter_map_replace (db : List StoredObject) (r : StoredObject) :
    (db.map (fun x => if x.id == r.id then r else x)).filter (fun x => x.id != r.id)
      = db.filter (fun x => x.id != r.id) := by
  induction db with
  | nil => rfl
  | cons x xs ih =>
    simp only [List.map_cons, List.filter_cons]
    by_cases hx : (x.id == r.id) = true
    · rw [if_pos hx]
      have h1 : (r.id != r.id) = false := by simp
      have h2 : (x.id != r.id) = false := by simp [bne, hx]
      rw [h1, h2]
      simp only [Bool.false_eq_true, if_false]
      exact ih
    · rw [if_neg hx]
      have h2 : (x.id != r.id) = true := by
        simp only [bne]
        simpa using hx
      rw [h2]
      simp only [if_true]
      rw [ih]

theorem deleteItem_putItem (db : List StoredObject) (r : StoredObject) :
    deleteItem (putItem db r) r.id = deleteItem db r.id := by
  unfold putItem deleteItem
  split
  · exact filter_map_replace db r
  · rw [List.filter_append]
    simp

theorem mem_deleteItem {db : List StoredObject} {i : String} {r : StoredObject} :
    r ∈ deleteItem db i ↔ r ∈ db ∧ r.id ≠ i := by
  unfold deleteItem
  simp [List.mem_filter]

theorem mem_of_lookupByNameToken {db : List StoredObject} {n t : String}
    {obj : StoredObject} (h : lookupByNameToken db n t = some obj) :
    obj ∈ db ∧ obj.name = n ∧ obj.token = t := by
  unfold lookupByNameToken queryByName at h
  have hmem := List.mem_of_find?_eq_some h
  have hp := List.find?_some h
  rw [List.mem_filter] at hmem
  exact ⟨hmem.1, by simpa using hmem.2, by simpa using hp⟩

theorem mem_of_lookupByToken {db : List StoredObject} {t : String}
    {obj : StoredObject} (h : lookupByToken db t = some obj) :
    obj ∈ db ∧ obj.token = t := by
  unfold lookupByToken at h
  rw [List.head?_eq_some_iff] at h
  obtain ⟨ys, hys⟩ := h
  have hmem : obj ∈ db.filter (fun r => r.token == t) := by
    rw [hys]; exact List.mem_cons_self obj ys
  rw [List.mem_filter] at hmem
  exact ⟨hmem.1, by simpa using hmem.2⟩

theorem lookupByNameToken_cons (x : StoredObject) (db : List StoredObject) (n t : String) :
    lookupByNameToken (x :: db) n t
      = if x.name = n ∧ x.token = t then some x else lookupByNameToken db n t := by
  unfold lookupByNameToken queryByName
  rw [List.filter_cons]
  by_cases hn : (x.name == n) = true
  · rw [if_pos hn, List.find?_cons]
    by_cases ht : (x.token == t) = true
    · have hb : x.name = n ∧ x.token = t := ⟨by simpa using hn, by simpa using ht⟩
      simp [ht, hb]
    · have hb : ¬(x.name = n ∧ x.token = t) := by
        rintro ⟨h1, h2⟩; exact ht (by simpa using h2)
      simp [ht, hb]
  · have hb : ¬(x.name = n ∧ x.token = t) := by
      rintro ⟨h1, h2⟩; exact hn (by simpa using h1)
    simp [hn, hb]

theorem lookupByToken_cons (x : StoredObject) (db : List StoredObject) (t : String) :
    lookupByToken (x :: db) t = if x.token = t then some x else lookupByToken db t := by
  unfold lookupByToken
  rw [List.filter_cons]
  by_cases ht : (x.token == t) = true
  · simp [ht, (by simpa using ht : x.token = t)]
  · have hb : ¬x.token = t := fun hh => ht (by simpa using hh)
    simp [ht, hb]

theorem lookupByNameToken_map_replace {db : List StoredObject} {n t : String}
    {obj upd : StoredObject}
    (hl : lookupByNameToken db n t = some obj)
    (hon : obj.name = n) (hot : obj.token = t)
    (huniq : ∀ r ∈ db, r.id = obj.id → r = obj)
    (hid : upd.id = obj.id) (hname : upd.name = obj.name) (htok : upd.token = obj.token) :
    lookupByNameToken (db.map (fun x => if x.id == upd.id then upd else x)) n t
      = some upd := by
  induction db with
  | nil => simp [lookupByNameToken, queryByName] at hl
  | cons x xs ih =>
    rw [lookupByNameToken_cons] at hl
    rw [List.map_cons, lookupByNameToken_cons]
    by_cases hx : x.name = n ∧ x.token = t
    · rw [if_pos hx] at hl
      have hxo : x = obj := by injection hl
      have hxid : (x.id == upd.id) = true := by simp [hxo, hid]
      rw [if_pos hxid]
      have : upd.name = n ∧ upd.token = t := ⟨hname.trans hon, htok.trans hot⟩
      simp [this]
    · rw [if_neg hx] at hl
      have hxid : (x.id == upd.id) = false := by
        by_contra hcon
        have h1 : x.id = upd.id := by
          simpa using (Bool.not_eq_false _).mp hcon
        have h2 : x = obj := huniq x (List.mem_cons_self x xs) (h1.trans hid)
        exact hx ⟨h2 ▸ hon, h2 ▸ hot⟩
      rw [hxid]
      simp only [Bool.false_eq_true, if_false]
      have hif : ¬(x.name = n ∧ x.token = t) := hx
      rw [if_neg hif]
      exact ih hl (fun r hr => huniq r (List.mem_cons_of_mem x hr))

theorem lookupByToken_map_replace {db : List StoredObject} {t : String}
    {obj upd : StoredObject}
    (hl : lookupByToken db t = some obj)
    (hot : obj.token = t)
    (huniq : ∀ r ∈ db, r.id = obj.id → r = obj)
    (hid : upd.id = obj.id) (htok : upd.token = obj.token) :
    lookupByToken (db.map (fun x => if x.id == upd.id then upd else x)) t = some upd := by
  induction db with
  | nil => simp [lookupByToken] at hl
  | cons x xs ih =>
    rw [lookupByToken_cons] at hl
    rw [List.map_cons, lookupByToken_cons]
    by_cases hx : x.token = t
    · rw [if_pos hx] at hl
      have hxo : x = obj := by injection hl
      have hxid : (x.id == upd.id) = true := by simp [hxo, hid]
      rw [if_pos hxid]
      simp [htok.trans hot]
    · rw [if_neg hx] at hl
      have hxid : (x.id == upd.id) = false := by
        by_contra hcon
        have h1 : x.id = upd.id := by
          simpa using (Bool.not_eq_false _).mp hcon
        have h2 : x = obj := huniq x (List.mem_cons_self x xs) (h1.trans hid)
        exact hx (h2 ▸ hot)
      rw [hxid]
      simp only [Bool.false_eq_true, if_false]
      rw [if_neg hx]
      exact ih hl (fun r hr => huniq r (List.mem_cons_of_mem x hr))

theorem lookupByNameToken_deleteItem_eq_none {db : List StoredObject} {i n t : String}
    (h : ∀ r ∈ db, r.token = t → r.id = i) :
    lookupByNameToken (deleteItem db i) n t = none := by
  unfold lookupByNameToken queryByName
  rw [List.find?_eq_none]
  intro x hx
  rw [List.mem_filter] at hx
  have hxdel := mem_deleteItem.mp hx.1
  intro hpx
  exact hxdel.2 (h x hxdel.1 (by simpa using hpx))

theorem lookupByToken_deleteItem_eq_none {db : List StoredObject} {i t : String}
    (h : ∀ r ∈ db, r.token = t → r.id = i) :
    lookupByToken (deleteItem db i) t = none := by
  unfold lookupByToken
  rw [List.head?_eq_none_iff, List.filter_eq_nil_iff]
  intro a ha hpa
  have hadel := mem_deleteItem.mp ha
  exact hadel.2 (h a hadel.1 (by simpa using hpa))

theorem uniq_putItem (db : List StoredObject) (upd : StoredObject) :
    ∀ r ∈ putItem db upd, r.id = upd.id → r = upd := by
  intro r hr hid
  unfold putItem at hr
  split at hr
  · obtain ⟨x, hx, rfl⟩ := List.mem_map.mp hr
    by_cases hxid : (x.id == upd.id) = true
    · simp [hxid]
    · rw [if_neg hxid] at hid ⊢
      exact absurd hid (by simpa using hxid)
  · rename_i hany
    rcases List.mem_append.mp hr with h | h
    · have hfalse : db.any (fun r => r.id == upd.id) = false := by
        simpa using hany
      have := List.any_eq_false.mp hfalse r h
      exact absurd hid (by simpa using this)
    · simpa using h

theorem putItem_eq_map {db : List StoredObject} {upd : StoredObject}
    (h : db.any (fun r => r.id == upd.id) = true) :
    putItem db upd = db.map (fun x => if x.id == upd.id then upd else x) := by
  unfold putItem
  rw [if_pos h]

theorem any_id_of_mem {db : List StoredObject} {obj : StoredObject} {i : String}
    (hmem : obj ∈ db) (hid : i = obj.id) :
    db.any (fun r => r.id == i) = true :=
  List.any_eq_true.mpr ⟨obj, hmem, by simp [hid]⟩

theorem putItem_putItem {db : List StoredObject} {a b : StoredObject}
    (hid : a.id = b.id) (hmem : db.any (fun r => r.id == a.id) = true) :
    putItem (putItem db a) b = putItem db b := by
  have hmemb : db.any (fun r => r.id == b.id) = true := by
    rw [← hid]; exact hmem
  rw [putItem_eq_map hmem, putItem_eq_map hmemb]
  have hmem2 : (db.map (fun x => if x.id == a.id then a else x)).any
      (fun r => r.id == b.id) = true := by
    rw [List.any_map]
    rcases List.any_eq_true.mp hmem with ⟨x, hx, hpx⟩
    refine List.any_eq_true.mpr ⟨x, hx, ?_⟩
    simp only [Function.comp]
    rw [if_pos hpx]
    simp [hid]
  rw [putItem_eq_map hmem2, List.map_map]
  refine List.map_congr_left ?_
  intro x _
  simp only [Function.comp]
  by_cases hx : (x.id == a.id) = true
  · rw [if_pos hx]
    have : (a.id == b.id) = true := by simp [hid]
    rw [if_pos this]
    have hxb : (x.id == b.id) = true := by
      have h1 : x.id = a.id := by simpa using hx
      simp [h1, hid]
    rw [if_pos hxb]
  · rw [if_neg hx]

theorem jsTruthyStr_some_of_ne {s : String} (h : s ≠ "") : jsTruthyStr (some s) = true := by
  simp only [jsTruthyStr, bne_iff_ne, ne_eq]
  exact h

theorem jsTruthyStr_getD_ne {o : Option String} (h : jsTruthyStr o = true) :
    o.getD "" ≠ "" := by
  cases o with
  | none => simp [jsTruthyStr] at h
  | some s =>
    simp only [Option.getD_some]
    simpa [jsTruthyStr, bne_iff_ne] using h

theorem deleteItem_putItem_id (db : List StoredObject) (r : StoredObject) (i : String)
    (h : r.id = i) : deleteItem (putItem db r) i = deleteItem db i := by
  rw [← h]
  exact deleteItem_putItem db r

theorem readBody_plain {db : List StoredObject} {obj : StoredObject} {now : Int}
    {iv : List Nat} (htype : obj.type ≠ "toggle") (hone : obj.oneTimeAccess = false) :
    readBody db obj now iv
      = (ReadOutcome.success (decryptContent obj.content) (obj.hitCount + 1),
         putItem db (bumpHit obj now)) := by
  unfold readBody
  have ht : (obj.type == "toggle") = false := by simpa using htype
  simp [ht, hone]

theorem readBody_plain_oneTime {db : List StoredObject} {obj : StoredObject} {now : Int}
    {iv : List Nat} (htype : obj.type ≠ "toggle") (hone : obj.oneTimeAccess = true) :
    readBody db obj now iv
      = (ReadOutcome.success (decryptContent obj.content) (obj.hitCount + 1),
         deleteItem db obj.id) := by
  unfold readBody
  have ht : (obj.type == "toggle") = false := by simpa using htype
  simp only [ht, hone, Bool.false_eq_true, if_false, if_true]
  rw [deleteItem_putItem_id db (bumpHit obj now) obj.id rfl]

theorem readBody_toggle {db : List StoredObject} {obj : StoredObject} {now : Int}
    {iv : List Nat} (htype : obj.type = "toggle") (hone : obj.oneTimeAccess = false) :
    readBody db obj now iv
      = (ReadOutcome.success (decryptContent obj.content) (obj.hitCount + 1),
         putItem (putItem db (bumpHit obj now)) (toggledItem obj now iv)) := by
  unfold readBody
  have ht : (obj.type == "toggle") = true := by simpa using htype
  simp [ht, hone]

theorem readBody_toggle_oneTime {db : List StoredObject} {obj : StoredObject} {now : Int}
    {iv : List Nat} (htype : obj.type = "toggle") (hone : obj.oneTimeAccess = true) :
    readBody db obj now iv
      = (ReadOutcome.success (decryptContent obj.content) (obj.hitCount + 1),
         deleteItem db obj.id) := by
  unfold readBody
  have ht : (obj.type == "toggle") = true := by simpa using htype
  simp only [ht, hone, Bool.not_true, Bool.false_eq_true, if_false, if_true]
  rw [deleteItem_putItem_id db (bumpHit obj now) obj.id rfl]

theorem readCore_expired {db : List StoredObject} {obj : StoredObject}
    {code : Option String} {now : Int} {iv : List Nat} (hexp : obj.ttl ≤ now) :
    readCore db obj code now iv = (ReadOutcome.expired, deleteItem db obj.id) := by
  unfold readCore
  rw [if_pos hexp]

theorem readCore_live_noMFA {db : List StoredObject} {obj : StoredObject}
    {code : Option String} {now : Int} {iv : List Nat}
    (hexp : ¬obj.ttl ≤ now) (hmfa : jsTruthyStr obj.totpSecret = false) :
    readCore db obj code now iv = readBody db obj now iv := by
  unfold readCore
  rw [if_neg hexp, hmfa]
  simp

theorem readCore_mfa_noCode {db : List StoredObject} {obj : StoredObject}
    {code : Option String} {now : Int} {iv : List Nat}
    (hexp : ¬obj.ttl ≤ now) (hmfa : jsTruthyStr obj.totpSecret = true)
    (hcode : jsTruthyStr code = false) :
    readCore db obj code now iv
      = (ReadOutcome.mfaRequired
          (if obj.hitCount = 0 then some (totpQRString obj) else none), db) := by
  unfold readCore
  rw [if_neg hexp, hmfa, hcode]
  simp

theorem readCore_mfa_withCode {db : List StoredObject} {obj : StoredObject}
    {code : Option String} {now : Int} {iv : List Nat}
    (hexp : ¬obj.ttl ≤ now) (hmfa : jsTruthyStr obj.totpSecret = true)
    (hcode : jsTruthyStr code = true) :
    readCore db obj code now iv = (ReadOutcome.threw "Unknown encoding: base32", db) := by
  unfold readCore
  rw [if_neg hexp, hmfa, hcode]
  have hs := jsTruthyStr_getD_ne hmfa
  have hc := jsTruthyStr_getD_ne hcode
  unfold verifyTOTPToken
  rw [if_neg (by tauto : ¬(obj.totpSecret.getD "" = "" ∨ code.getD "" = ""))]
  simp [bufferFromBase32]

theorem getObject_found {db : List StoredObject} {n t : String} {code : Option String}
    {now : Int} {iv : List Nat} {obj : StoredObject}
    (hn : n ≠ "") (ht : t ≠ "") (hl : lookupByNameToken db n t = some obj) :
    getObject db (some n) (some t) code now iv
      = (match readCore db obj code now iv with
         | (ReadOutcome.expired, db2) =>
           (ApiResult.gone "Object has expired and has been deleted", db2)
         | (ReadOutcome.mfaRequired qr, db2) => (ApiResult.mfaRequired qr, db2)
         | (ReadOutcome.mfaInvalid, db2) => (ApiResult.mfaInvalid "Invalid TOTP code", db2)
         | (ReadOutcome.threw e, db2) => (ApiResult.internalError e, db2)
         | (ReadOutcome.success c h, db2) => (ApiResult.ok c h, db2)) := by
  unfold getObject
  rw [jsTruthyStr_some_of_ne hn, jsTruthyStr_some_of_ne ht]
  simp only [Bool.and_self, Bool.not_true, Bool.false_eq_true, if_false, Option.getD_some]
  rw [hl]

theorem getObject_notFound {db : List StoredObject} {n t : String} {code : Option String}
    {now : Int} {iv : List Nat}
    (hn : n ≠ "") (ht : t ≠ "") (hl : lookupByNameToken db n t = none) :
    getObject db (some n) (some t) code now iv
      = (ApiResult.notFound "Object not found or invalid token", db) := by
  unfold getObject
  rw [jsTruthyStr_some_of_ne hn, jsTruthyStr_some_of_ne ht]
  simp only [Bool.and_self, Bool.not_true, Bool.false_eq_true, if_false, Option.getD_some]
  rw [hl]

theorem getObjectByToken_found {db : List StoredObject} {t : String} {code : Option String}
    {now : Int} {iv : List Nat} {obj : StoredObject}
    (ht : t ≠ "") (hl : lookupByToken db t = some obj) :
    getObjectByToken db (some t) code now iv
      = (match readCore db obj code now iv with
         | (ReadOutcome.expired, db2) =>
           (ApiResult.gone "Object has expired and has been deleted", db2)
         | (ReadOutcome.mfaRequired qr, db2) => (ApiResult.mfaRequired qr, db2)
         | (ReadOutcome.mfaInvalid, db2) => (ApiResult.mfaInvalid "Invalid TOTP code", db2)
         | (ReadOutcome.threw e, db2) => (ApiResult.internalError e, db2)
         | (ReadOutcome.success c h, db2) =>
           (ApiResult.okNamed obj.name obj.type c h, db2)) := by
  unfold getObjectByToken
  rw [jsTruthyStr_some_of_ne ht]
  simp only [Bool.not_true, Bool.false_eq_true, if_false, Option.getD_some]
  rw [hl]

theorem getObjectByToken_notFound {db : List StoredObject} {t : String}
    {code : Option String} {now : Int} {iv : List Nat}
    (ht : t ≠ "") (hl : lookupByToken db t = none) :
    getObjectByToken db (some t) code now iv
      = (ApiResult.notFound "Object not found or invalid token", db) := by
  unfold getObjectByToken
  rw [jsTruthyStr_some_of_ne ht]
  simp only [Bool.not_true, Bool.false_eq_true, if_false, Option.getD_some]
  rw [hl]

theorem toggleBooleanObject_found {db : List StoredObject} {n t : String}
    {now : Int} {iv : List Nat} {obj : StoredObject}
    (hn : n ≠ "") (ht : t ≠ "") (hl : lookupByNameToken db n t = some obj)
    (hexp : ¬obj.ttl ≤ now) (htype : obj.type = "boolean") :
    toggleBooleanObject db (some n) (some t) now iv
      = (ApiResult.ok (jbool (jsNot (decryptContent obj.content))) (obj.hitCount + 1),
         putItem db
           { obj with content := encryptContent iv (jbool (jsNot (decryptContent obj.content))),
                      hitCount := obj.hitCount + 1, lastHit := some now }) := by
  unfold toggleBooleanObject
  rw [jsTruthyStr_some_of_ne hn, jsTruthyStr_some_of_ne ht]
  simp only [Bool.and_self, Bool.not_true, Bool.false_eq_true, if_false, Option.getD_some]
  rw [hl]
  simp only [if_neg hexp]
  have hb : (obj.type != "boolean") = false := by simp [bne, htype]
  rw [hb]
  simp

/-- A fixed 16-byte initialisation-vector draw used by concrete scenarios. -/
def iv16 : List Nat := [0, 1, 2, 3, 4, 5, 6, 7, 8, 9, 10, 11, 12, 13, 14, 15]

/-- A second, distinct initialisation-vector draw. -/
def iv16b : List Nat :=
  [255, 254, 253, 252, 251, 250, 249, 248, 247, 246, 245, 244, 243, 242, 241, 240]

/-- The create body of the section-8 scenario 6 of the spec. -/
def c8Input : CreateInput :=
  { name := some "flag", type := some "boolean", content := some (jbool true),
    ttlHours := some 1, ownerEmail := none, ownerName := none,
    oneTimeAccess := none, enableMFA := none }

/-- The stored item that create writes for `c8Input` at `now = 0`. -/
def c8Item : StoredObject := builtItem c8Input 0 iv16 "x1" "tokT" none

/-- The table after the first fetch of the scenario. -/
def c8DbAfterGet : List StoredObject :=
  (getObject [c8Item] (some "flag") (some "tokT") none 1000 iv16).2

/-- The table after the toggle-endpoint call of the scenario. -/
def c8DbAfterToggle : List StoredObject :=
  (toggleBooleanObject c8DbAfterGet (some "flag") (some "tokT") 2000 iv16b).2

/-- C8: creating `{name:"flag", type:"boolean", content:true, ttlHours:1}`
under token `tokT` stores the item verbatim; `GET /objects?name=flag&token=tokT`
answers `{content: true, hits: 1}`; `POST /toggle {name:"flag", token:"tokT"}`
then answers `{content: false, hits: 2}` and persists the encrypted `false`
(hit count 2); and a `GET` with a non-matching token answers 404 and leaves
the table unchanged. -/
theorem C8_concrete_boolean_scenario :
    createObject [] c8Input 0 iv16 "x1" "tokT" = (ApiResult.created c8Item, [c8Item])
    ∧ (getObject [c8Item] (some "flag") (some "tokT") none 1000 iv16).1
        = ApiResult.ok (jbool true) 1
    ∧ (toggleBooleanObject c8DbAfterGet (some "flag") (some "tokT") 2000 iv16b).1
        = ApiResult.ok (jbool false) 2
    ∧ c8DbAfterToggle.map (fun o => decryptContent o.content) = [jbool false]
    ∧ c8DbAfterToggle.map (fun o => o.hitCount) = [2]
    ∧ getObject c8DbAfterToggle (some "flag") (some "badtoken") none 3000 iv16
        = (ApiResult.notFound "Object not found or invalid token", c8DbAfterToggle)
    ∧ statusOf (ApiResult.notFound "Object not found or invalid token") = 404 := by
  decide

/-- C6 counterexample: a legacy stored value with no `:` separator is not
always returned unchanged — the fallback applies `JSON.parse`, so the stored
text `true` comes back as the boolean `true`, not as the string `"true"`. -/
theorem C6_counterexample_fallback_parses :
    (':' ∉ "true".data)
    ∧ decryptContent "true" = jbool true
    ∧ decryptContent "true" ≠ jstr "true" := by
  decide

/-- C6 amended: `decrypt (encrypt x) = x` for every string or boolean content
value, and for input without a `:` separator decrypt falls back to treating
the input as already-plaintext JSON — returning the parsed value when it is
valid JSON and the raw input string unchanged otherwise, never raising. -/
theorem C6_amended_roundtrip_and_fallback {iv : List Nat} (hiv : ivOk iv) (v : JVal)
    (s : String) (hs : ':' ∉ s.data) :
    decryptContent (encryptContent iv v) = v
    ∧ decryptContent s = (match parseJson s with | some w => w | none => jstr s) := by
  refine ⟨decryptContent_encryptContent hiv v, ?_⟩
  unfold decryptContent
  rw [splitCh_no_sep hs]
  rfl

/-- Witness for the C6 theorem at concrete inputs: a string containing the
separator round-trips, and non-JSON legacy text reads back unchanged. -/
theorem C6_amended_witness :
    decryptContent (encryptContent iv16 (jstr "a:b")) = jstr "a:b"
    ∧ decryptContent "hello" = jstr "hello" := by
  have h := C6_amended_roundtrip_and_fallback (show ivOk iv16 by decide) (jstr "a:b")
    "hello" (by decide)
  refine ⟨h.1, ?_⟩
  rw [h.2]
  decide

/-- An MFA-gated stored object (such records can enter the table through the
update endpoint or as legacy data; the create path cannot mint one because
its secret generator throws). -/
def mfaObj : StoredObject :=
  { id := "idM", name := "sec", type := "string",
    content := encryptContent iv16 (jstr "v"), ttl := 10000000, token := "tokM",
    ownerEmail := "anonymous", ownerName := "Anonymous User", hitCount := 0,
    createdAt := 0, lastHit := none, oneTimeAccess := false,
    totpSecret := some "JBSWY3DPEHPK3PXP" }

/-- C5: on an MFA-gated object the code matches the claim only for the
missing-code case (403 challenge, table unchanged); a fetch that presents any
six-digit code reaches `Buffer.from(secret, 'base32')`, which throws in Node
(`base32` is not a Buffer encoding), so the handler answers 500 — neither the
claimed 200 success for a valid RFC 4226 code nor the claimed 403
`MFAInvalid` for an invalid one is reachable. -/
theorem C5_totp_verification_throws :
    getObject [mfaObj] (some "sec") (some "tokM") none 1000 iv16
      = (ApiResult.mfaRequired (some (totpQRString mfaObj)), [mfaObj])
    ∧ getObject [mfaObj] (some "sec") (some "tokM") (some "123456") 1000 iv16
      = (ApiResult.internalError "Unknown encoding: base32", [mfaObj])
    ∧ getObjectByToken [mfaObj] (some "tokM") (some "123456") 1000 iv16
      = (ApiResult.internalError "Unknown encoding: base32", [mfaObj])
    ∧ verifyTOTPToken "JBSWY3DPEHPK3PXP" "123456" 1000
      = Except.error "Unknown encoding: base32"
    ∧ statusOf (ApiResult.internalError "Unknown encoding: base32") = 500 := by
  decide

/-- A create body with MFA requested. -/
def c9Input : CreateInput :=
  { name := some "n9", type := some "string", content := some (jstr "plain"),
    ttlHours := some 1, ownerEmail := none, ownerName := none,
    oneTimeAccess := none, enableMFA := some true }

/-- The item a non-MFA create of the same body stores. -/
def c9Item : StoredObject :=
  builtItem { c9Input with enableMFA := none } 0 iv16 "x9" "tok9" none

/-- C9: the 201 response does return the stored item verbatim with its
content as the `iv_hex:ciphertext_hex` blob rather than the submitted
plaintext — but a create with `enableMFA` set never reaches that response:
`generateTOTPSecret` throws (`base32` is not a Node Buffer encoding), the
handler answers 500, and nothing is stored, so no response body ever carries
a `totpSecret`. -/
theorem C9_create_response_and_mfa_throw :
    createObject [] c9Input 0 iv16 "x9" "tok9"
      = (ApiResult.internalError "Unknown encoding: base32", [])
    ∧ createObject [] { c9Input with enableMFA := none } 0 iv16 "x9" "tok9"
      = (ApiResult.created c9Item, [c9Item])
    ∧ c9Item.content = encryptContent iv16 (jstr "plain")
    ∧ decryptContent c9Item.content = jstr "plain"
    ∧ c9Item.content ≠ "plain"
    ∧ c9Item.totpSecret = none := by
  decide

/-- C7 counterexample: a create whose `name` is present and non-null but
empty is still rejected with 400, because the source tests `!name` (JS
falsiness), not only missing-or-null. -/
theorem C7_counterexample_empty_name :
    createObject []
      { name := some "", type := some "boolean", content := some (jbool true),
        ttlHours := some 1, ownerEmail := none, ownerName := none,
        oneTimeAccess := none, enableMFA := none } 0 iv16 "x" "t"
      = (ApiResult.badRequest "Missing required fields: name, type, content, ttlHours", [])
    ∧ (some "" : Option String) ≠ none := by
  decide

/-- An MFA-gated boolean object, reachable by the toggle-only endpoint. -/
def mfaBoolObj : StoredObject :=
  { mfaObj with id := "idB", name := "flagB", token := "tokB", type := "boolean",
                content := encryptContent iv16 (jbool true) }

/-- C1 counterexample: the toggle-only endpoint carries no TOTP code at all,
yet on an object whose `totpSecret` is set it decrypts, negates and returns
the content with 200 — the MFA gate of the fetch paths is bypassed. -/
theorem C1_counterexample_toggle_bypasses_mfa :
    jsTruthyStr mfaBoolObj.totpSecret = true
    ∧ (toggleBooleanObject [mfaBoolObj] (some "flagB") (some "tokB") 1000 iv16b).1
        = ApiResult.ok (jbool false) 1 := by
  decide

/-- Whether a response body carries decrypted object content. -/
def carriesContent : ApiResult → Bool
  | ApiResult.ok _ _ => true
  | ApiResult.okNamed _ _ _ _ => true
  | _ => false

theorem getById_deleteItem (db : List StoredObject) (i : String) :
    getById (deleteItem db i) i = none := by
  unfold getById
  rw [List.head?_eq_none_iff, List.filter_eq_nil_iff]
  intro a ha hpa
  exact (mem_deleteItem.mp ha).2 (by simpa using hpa)

theorem self_mem_putItem (db : List StoredObject) (item : StoredObject) :
    item ∈ putItem db item := by
  unfold putItem
  split
  · rename_i hany
    obtain ⟨x, hx, hpx⟩ := List.any_eq_true.mp hany
    exact List.mem_map.mpr ⟨x, hx, by rw [if_pos hpx]⟩
  · exact List.mem_append.mpr (Or.inr (List.mem_singleton.mpr rfl))

theorem mem_putItem {db : List StoredObject} {item r : StoredObject}
    (h : r ∈ putItem db item) : r = item ∨ r ∈ db := by
  unfold putItem at h
  split at h
  · obtain ⟨x, hx, hfx⟩ := List.mem_map.mp h
    by_cases hxi : (x.id == item.id) = true
    · rw [if_pos hxi] at hfx
      exact Or.inl hfx.symm
    · rw [if_neg hxi] at hfx
      exact Or.inr (hfx ▸ hx)
  · rcases List.mem_append.mp h with h2 | h2
    · exact Or.inr h2
    · exact Or.inl (List.mem_singleton.mp h2)

/-- C1 amended: an object whose `totpSecret` is set (truthy) never yields
decrypted content through the two fetch paths — without a code they answer
the 403 TOTP challenge, and with a code the verifier throws (no `base32`
Buffer encoding) so they answer 500 — while the toggle-only endpoint carries
no TOTP code, bypasses the gate, and returns the decrypted negated content
of a live boolean object. -/
theorem C1_amended_mfa_gate (db : List StoredObject) (n t : String)
    (code : Option String) (now : Int) (iv : List Nat) (obj : StoredObject)
    (hn : n ≠ "") (ht : t ≠ "") (hmfa : jsTruthyStr obj.totpSecret = true) :
    (lookupByNameToken db n t = some obj →
      carriesContent (getObject db (some n) (some t) code now iv).1 = false)
    ∧ (lookupByToken db t = some obj →
      carriesContent (getObjectByToken db (some t) code now iv).1 = false)
    ∧ (lookupByNameToken db n t = some obj → ¬obj.ttl ≤ now → obj.type = "boolean" →
      (toggleBooleanObject db (some n) (some t) now iv).1
        = ApiResult.ok (jbool (jsNot (decryptContent obj.content))) (obj.hitCount + 1)) := by
  refine ⟨?_, ?_, ?_⟩
  · intro hl
    rw [getObject_found hn ht hl]
    by_cases hexp : obj.ttl ≤ now
    · rw [readCore_expired hexp]
      rfl
    · by_cases hcode : jsTruthyStr code = true
      · rw [readCore_mfa_withCode hexp hmfa hcode]
        rfl
      · rw [readCore_mfa_noCode hexp hmfa (by simpa using hcode)]
        rfl
  · intro hl
    rw [getObjectByToken_found ht hl]
    by_cases hexp : obj.ttl ≤ now
    · rw [readCore_expired hexp]
      rfl
    · by_cases hcode : jsTruthyStr code = true
      · rw [readCore_mfa_withCode hexp hmfa hcode]
        rfl
      · rw [readCore_mfa_noCode hexp hmfa (by simpa using hcode)]
        rfl
  · intro hl hexp htype
    rw [toggleBooleanObject_found hn ht hl hexp htype]

/-- Witness for the C1 theorem at the concrete MFA-gated boolean object. -/
theorem C1_amended_witness :
    carriesContent
        (getObject [mfaBoolObj] (some "flagB") (some "tokB") (some "123456") 1000 iv16).1
      = false
    ∧ carriesContent (getObjectByToken [mfaBoolObj] (some "tokB") none 1000 iv16).1
      = false
    ∧ (toggleBooleanObject [mfaBoolObj] (some "flagB") (some "tokB") 1000 iv16).1
      = ApiResult.ok (jbool (jsNot (decryptContent mfaBoolObj.content)))
          (mfaBoolObj.hitCount + 1) := by
  have h1 := C1_amended_mfa_gate [mfaBoolObj] "flagB" "tokB" (some "123456") 1000 iv16
    mfaBoolObj (by decide) (by decide) (by decide)
  have h2 := C1_amended_mfa_gate [mfaBoolObj] "flagB" "tokB" none 1000 iv16
    mfaBoolObj (by decide) (by decide) (by decide)
  exact ⟨h1.1 (by decide), h2.2.1 (by decide),
    h1.2.2 (by decide) (by decide) (by decide)⟩

/-- C2: an expired object reached with its matching token answers 410 through
either fetch path, the record is deleted as a side effect — before any MFA
check, since the outcome holds for every `totpCode` and every `totpSecret` —
no content is returned, and a subsequent lookup of the id finds nothing. -/
theorem C2_expiry_is_destructive (db dbT : List StoredObject) (n t tT : String)
    (code codeT : Option String) (now nowT : Int) (iv ivT : List Nat)
    (obj objT : StoredObject)
    (hn : n ≠ "") (ht : t ≠ "") (htT : tT ≠ "")
    (hl : lookupByNameToken db n t = some obj) (hexp : obj.ttl ≤ now)
    (hlT : lookupByToken dbT tT = some objT) (hexpT : objT.ttl ≤ nowT) :
    getObject db (some n) (some t) code now iv
      = (ApiResult.gone "Object has expired and has been deleted", deleteItem db obj.id)
    ∧ statusOf (getObject db (some n) (some t) code now iv).1 = 410
    ∧ carriesContent (getObject db (some n) (some t) code now iv).1 = false
    ∧ getById (deleteItem db obj.id) obj.id = none
    ∧ getObjectByToken dbT (some tT) codeT nowT ivT
      = (ApiResult.gone "Object has expired and has been deleted", deleteItem dbT objT.id)
    ∧ getById (deleteItem dbT objT.id) objT.id = none := by
  have h1 : getObject db (some n) (some t) code now iv
      = (ApiResult.gone "Object has expired and has been deleted", deleteItem db obj.id) := by
    rw [getObject_found hn ht hl, readCore_expired hexp]
  have h2 : getObjectByToken dbT (some tT) codeT nowT ivT
      = (ApiResult.gone "Object has expired and has been deleted",
         deleteItem dbT objT.id) := by
    rw [getObjectByToken_found htT hlT, readCore_expired hexpT]
  refine ⟨h1, ?_, ?_, getById_deleteItem db obj.id, h2, getById_deleteItem dbT objT.id⟩
  · rw [h1]
    rfl
  · rw [h1]
    rfl

/-- An expired stored object used by concrete witnesses. -/
def expObj : StoredObject :=
  { id := "idE", name := "e", type := "string",
    content := encryptContent iv16 (jstr "x"), ttl := 10, token := "tokE",
    ownerEmail := "anonymous", ownerName := "Anonymous User", hitCount := 0,
    createdAt := 0, lastHit := none, oneTimeAccess := false, totpSecret := none }

/-- Witness for the C2 theorem at a concrete expired object (read at
`now = ttl`, with a TOTP code present, showing the expiry check wins). -/
theorem C2_expiry_witness :
    getObject [expObj] (some "e") (some "tokE") (some "123456") 10 iv16
      = (ApiResult.gone "Object has expired and has been deleted",
         deleteItem [expObj] expObj.id)
    ∧ getById (deleteItem [expObj] expObj.id) expObj.id = none := by
  have h := C2_expiry_is_destructive [expObj] [expObj] "e" "tokE" "tokE"
    (some "123456") (some "123456") 10 10 iv16 iv16 expObj expObj
    (by decide) (by decide) (by decide) (by decide) (by decide) (by decide) (by decide)
  exact ⟨h.1, h.2.2.2.1⟩

/-- C10: when the presented token matches no same-named record, the fetch
answers 404 and the table is left unchanged — in particular an expired
same-named record survives, because the lookup precedes the expiry check and
its destructive delete; the token-only fetch behaves the same on a token
that matches nothing. -/
theorem C10_wrong_token_leaves_expired_record (db : List StoredObject)
    (n t t2 : String) (code : Option String) (now : Int) (iv : List Nat)
    (obj : StoredObject)
    (hn : n ≠ "") (ht : t ≠ "") (ht2 : t2 ≠ "")
    (hl : lookupByNameToken db n t = none) (hl2 : lookupByToken db t2 = none)
    (hmem : obj ∈ db) (hname : obj.name = n) (hexp : obj.ttl ≤ now) :
    getObject db (some n) (some t) code now iv
      = (ApiResult.notFound "Object not found or invalid token", db)
    ∧ obj ∈ (getObject db (some n) (some t) code now iv).2
    ∧ getObjectByToken db (some t2) code now iv
      = (ApiResult.notFound "Object not found or invalid token", db) := by
  refine ⟨getObject_notFound hn ht hl, ?_, getObjectByToken_notFound ht2 hl2⟩
  rw [getObject_notFound hn ht hl]
  exact hmem

/-- Witness for the C10 theorem: the expired record is still present after a
fetch with a wrong token. -/
theorem C10_wrong_token_witness :
    getObject [expObj] (some "e") (some "wrong") none 10 iv16
      = (ApiResult.notFound "Object not found or invalid token", [expObj])
    ∧ expObj ∈ (getObject [expObj] (some "e") (some "wrong") none 10 iv16).2 := by
  have h := C10_wrong_token_leaves_expired_record [expObj] "e" "wrong" "wrong2"
    none 10 iv16 expObj (by decide) (by decide) (by decide) (by decide) (by decide)
    (by decide) (by decide) (by decide)
  exact ⟨h.1, h.2.1⟩

/-- C3: on a live one-time-access object (necessarily without the MFA gate,
since the gate never passes), the first successful read through either fetch
path returns the correct decrypted content with the bumped hit count, the
record is deleted after the response is computed, and — when the token
identifies only this record — every subsequent lookup by the same token
answers 404. -/
theorem C3_one_time_access (db : List StoredObject) (n t : String)
    (code code2 : Option String) (now now2 : Int) (iv iv2 iv0 : List Nat)
    (obj : StoredObject) (v : JVal)
    (hn : n ≠ "") (ht : t ≠ "")
    (hl : lookupByNameToken db n t = some obj)
    (hlT : lookupByToken db t = some obj)
    (hexp : ¬obj.ttl ≤ now)
    (hone : obj.oneTimeAccess = true)
    (hmfa : jsTruthyStr obj.totpSecret = false)
    (hcont : obj.content = encryptContent iv0 v) (hiv0 : ivOk iv0)
    (huniqTok : ∀ r ∈ db, r.token = t → r.id = obj.id) :
    getObject db (some n) (some t) code now iv
      = (ApiResult.ok v (obj.hitCount + 1), deleteItem db obj.id)
    ∧ getObjectByToken db (some t) code now iv
      = (ApiResult.okNamed obj.name obj.type v (obj.hitCount + 1), deleteItem db obj.id)
    ∧ getObject (deleteItem db obj.id) (some n) (some t) code2 now2 iv2
      = (ApiResult.notFound "Object not found or invalid token", deleteItem db obj.id)
    ∧ getObjectByToken (deleteItem db obj.id) (some t) code2 now2 iv2
      = (ApiResult.notFound "Object not found or invalid token", deleteItem db obj.id) := by
  have hdec : decryptContent obj.content = v := by
    rw [hcont]
    exact decryptContent_encryptContent hiv0 v
  have hread : readBody db obj now iv
      = (ReadOutcome.success v (obj.hitCount + 1), deleteItem db obj.id) := by
    by_cases htog : obj.type = "toggle"
    · rw [readBody_toggle_oneTime htog hone, hdec]
    · rw [readBody_plain_oneTime htog hone, hdec]
  refine ⟨?_, ?_, ?_, ?_⟩
  · rw [getObject_found hn ht hl, readCore_live_noMFA hexp hmfa, hread]
  · rw [getObjectByToken_found ht hlT, readCore_live_noMFA hexp hmfa, hread]
  · exact getObject_notFound hn ht (lookupByNameToken_deleteItem_eq_none huniqTok)
  · exact getObjectByToken_notFound ht (lookupByToken_deleteItem_eq_none huniqTok)

/-- A live one-time-access object used by the C3 witness. -/
def oneTimeObj : StoredObject :=
  { id := "idO", name := "ot", type := "string",
    content := encryptContent iv16 (jstr "secret"), ttl := 5000, token := "tokO",
    ownerEmail := "anonymous", ownerName := "Anonymous User", hitCount := 3,
    createdAt := 0, lastHit := none, oneTimeAccess := true, totpSecret := none }

/-- Witness for the C3 theorem at a concrete one-time object. -/
theorem C3_one_time_witness :
    getObject [oneTimeObj] (some "ot") (some "tokO") none 1000 iv16
      = (ApiResult.ok (jstr "secret") (oneTimeObj.hitCount + 1),
         deleteItem [oneTimeObj] oneTimeObj.id)
    ∧ getObject (deleteItem [oneTimeObj] oneTimeObj.id) (some "ot") (some "tokO")
        none 2000 iv16
      = (ApiResult.notFound "Object not found or invalid token",
         deleteItem [oneTimeObj] oneTimeObj.id) := by
  have h := C3_one_time_access [oneTimeObj] "ot" "tokO" none none 1000 2000
    iv16 iv16 iv16 oneTimeObj (jstr "secret") (by decide) (by decide) (by decide)
    (by decide) (by decide) (by decide) (by decide) (by decide) (by decide)
    (by decide)
  exact ⟨h.1, h.2.2.1⟩

/-- C4: a successful read of a live non-one-time `toggle` object returns the
pre-toggle value while persisting the encrypted logical negation with the hit
count bumped by exactly one; a second read then returns that negation and
persists the double negation, so consecutive reads alternate between the two
boolean states.  When the object is one-time, the toggled write is skipped
because the record is deleted this turn. -/
theorem C4_toggle_read (db : List StoredObject) (n t : String)
    (code code2 : Option String) (now now2 : Int) (iv iv2 : List Nat)
    (obj : StoredObject)
    (hn : n ≠ "") (ht : t ≠ "")
    (hl : lookupByNameToken db n t = some obj)
    (hexp : ¬obj.ttl ≤ now) (hexp2 : ¬obj.ttl ≤ now2)
    (htype : obj.type = "toggle")
    (hmfa : jsTruthyStr obj.totpSecret = false)
    (hiv : ivOk iv) (hiv2 : ivOk iv2)
    (huniq : ∀ r ∈ db, r.id = obj.id → r = obj) :
    (obj.oneTimeAccess = false →
      getObject db (some n) (some t) code now iv
        = (ApiResult.ok (decryptContent obj.content) (obj.hitCount + 1),
           putItem db (toggledItem obj now iv))
      ∧ decryptContent (toggledItem obj now iv).content
          = jbool (jsNot (decryptContent obj.content))
      ∧ (toggledItem obj now iv).hitCount = obj.hitCount + 1
      ∧ getObject (putItem db (toggledItem obj now iv)) (some n) (some t) code2 now2 iv2
        = (ApiResult.ok (jbool (jsNot (decryptContent obj.content))) (obj.hitCount + 2),
           putItem (putItem db (toggledItem obj now iv))
             (toggledItem (toggledItem obj now iv) now2 iv2))
      ∧ decryptContent (toggledItem (toggledItem obj now iv) now2 iv2).content
          = jbool (!(jsNot (decryptContent obj.content))))
    ∧ (obj.oneTimeAccess = true →
      getObject db (some n) (some t) code now iv
        = (ApiResult.ok (decryptContent obj.content) (obj.hitCount + 1),
           deleteItem db obj.id)) := by
  obtain ⟨hmem, hon, hot⟩ := mem_of_lookupByNameToken hl
  constructor
  · intro hone
    have hread : readBody db obj now iv
        = (ReadOutcome.success (decryptContent obj.content) (obj.hitCount + 1),
           putItem (putItem db (bumpHit obj now)) (toggledItem obj now iv)) :=
      readBody_toggle htype hone
    have hany1 : db.any (fun r => r.id == (bumpHit obj now).id) = true :=
      any_id_of_mem hmem rfl
    have hpp : putItem (putItem db (bumpHit obj now)) (toggledItem obj now iv)
        = putItem db (toggledItem obj now iv) :=
      putItem_putItem rfl hany1
    have hget1 : getObject db (some n) (some t) code now iv
        = (ApiResult.ok (decryptContent obj.content) (obj.hitCount + 1),
           putItem db (toggledItem obj now iv)) := by
      rw [getObject_found hn ht hl, readCore_live_noMFA hexp hmfa, hread, hpp]
    have hdect : decryptContent (toggledItem obj now iv).content
        = jbool (jsNot (decryptContent obj.content)) := by
      show decryptContent
        (encryptContent iv (jbool (jsNot (decryptContent obj.content)))) = _
      exact decryptContent_encryptContent hiv _
    have htype2 : (toggledItem obj now iv).type = "toggle" := htype
    have hone2 : (toggledItem obj now iv).oneTimeAccess = false := hone
    have hmfa2 : jsTruthyStr (toggledItem obj now iv).totpSecret = false := hmfa
    have hexp2b : ¬(toggledItem obj now iv).ttl ≤ now2 := hexp2
    have hanyT : db.any (fun r => r.id == (toggledItem obj now iv).id) = true :=
      any_id_of_mem hmem rfl
    have hlook2 : lookupByNameToken (putItem db (toggledItem obj now iv)) n t
        = some (toggledItem obj now iv) := by
      rw [putItem_eq_map hanyT]
      exact lookupByNameToken_map_replace hl hon hot huniq rfl rfl rfl
    have huniq2 : ∀ r ∈ putItem db (toggledItem obj now iv),
        r.id = (toggledItem obj now iv).id → r = toggledItem obj now iv :=
      uniq_putItem db (toggledItem obj now iv)
    have hread2 : readBody (putItem db (toggledItem obj now iv))
          (toggledItem obj now iv) now2 iv2
        = (ReadOutcome.success (decryptContent (toggledItem obj now iv).content)
             ((toggledItem obj now iv).hitCount + 1),
           putItem (putItem (putItem db (toggledItem obj now iv))
               (bumpHit (toggledItem obj now iv) now2))
             (toggledItem (toggledItem obj now iv) now2 iv2)) :=
      readBody_toggle htype2 hone2
    have hany2 : (putItem db (toggledItem obj now iv)).any
        (fun r => r.id == (bumpHit (toggledItem obj now iv) now2).id) = true :=
      any_id_of_mem (self_mem_putItem db (toggledItem obj now iv)) rfl
    have hpp2 : putItem (putItem (putItem db (toggledItem obj now iv))
          (bumpHit (toggledItem obj now iv) now2))
          (toggledItem (toggledItem obj now iv) now2 iv2)
        = putItem (putItem db (toggledItem obj now iv))
            (toggledItem (toggledItem obj now iv) now2 iv2) :=
      putItem_putItem rfl hany2
    have hget2 : getObject (putItem db (toggledItem obj now iv)) (some n) (some t)
          code2 now2 iv2
        = (ApiResult.ok (jbool (jsNot (decryptContent obj.content))) (obj.hitCount + 2),
           putItem (putItem db (toggledItem obj now iv))
             (toggledItem (toggledItem obj now iv) now2 iv2)) := by
      rw [getObject_found hn ht hlook2, readCore_live_noMFA hexp2b hmfa2, hread2, hpp2,
        hdect]
      rfl
    refine ⟨hget1, hdect, rfl, hget2, ?_⟩
    show decryptContent (encryptContent iv2
      (jbool (jsNot (decryptContent (toggledItem obj now iv).content)))) = _
    rw [decryptContent_encryptContent hiv2, hdect]
    rfl
  · intro hone
    have hread : readBody db obj now iv
        = (ReadOutcome.success (decryptContent obj.content) (obj.hitCount + 1),
           deleteItem db obj.id) :=
      readBody_toggle_oneTime htype hone
    rw [getObject_found hn ht hl, readCore_live_noMFA hexp hmfa, hread]

/-- A live toggle-type object used by the C4 witness. -/
def toggleObj : StoredObject :=
  { id := "idT", name := "tg", type := "toggle",
    content := encryptContent iv16 (jbool true), ttl := 99999, token := "tokG",
    ownerEmail := "anonymous", ownerName := "Anonymous User", hitCount := 0,
    createdAt := 0, lastHit := none, oneTimeAccess := false, totpSecret := none }

/-- Witness for the C4 theorem: two consecutive reads of a concrete toggle
object return alternating values with hit counts 1 and 2. -/
theorem C4_toggle_witness :
    getObject [toggleObj] (some "tg") (some "tokG") none 100 iv16
      = (ApiResult.ok (decryptContent toggleObj.content) (toggleObj.hitCount + 1),
         putItem [toggleObj] (toggledItem toggleObj 100 iv16))
    ∧ decryptContent (toggledItem toggleObj 100 iv16).content
      = jbool (jsNot (decryptContent toggleObj.content))
    ∧ getObject (putItem [toggleObj] (toggledItem toggleObj 100 iv16)) (some "tg")
        (some "tokG") none 200 iv16b
      = (ApiResult.ok (jbool (jsNot (decryptContent toggleObj.content)))
           (toggleObj.hitCount + 2),
         putItem (putItem [toggleObj] (toggledItem toggleObj 100 iv16))
           (toggledItem (toggledItem toggleObj 100 iv16) 200 iv16b)) := by
  have h := (C4_toggle_read [toggleObj] "tg" "tokG" none none 100 200 iv16 iv16b
    toggleObj (by decide) (by decide) (by decide) (by decide) (by decide) (by decide)
    (by decide) (by decide) (by decide) (by decide)).1 (by decide)
  exact ⟨h.1, h.2.1, h.2.2.2.1⟩

theorem jsTruthyStr_eq_false_iff (o : Option String) :
    jsTruthyStr o = false ↔ o = none ∨ o = some "" := by
  cases o with
  | none => simp [jsTruthyStr]
  | some s => simp [jsTruthyStr]

theorem find?_all_eq {l : List StoredObject} {p : StoredObject → Bool}
    {item : StoredObject}
    (hall : ∀ x ∈ l, p x = true → x = item) (hex : ∃ x ∈ l, p x = true) :
    l.find? p = some item := by
  induction l with
  | nil =>
    obtain ⟨x, hx, _⟩ := hex
    simp at hx
  | cons a l ih =>
    by_cases hpa : p a = true
    · rw [List.find?_cons_of_pos l hpa, hall a (List.mem_cons_self a l) hpa]
    · rw [List.find?_cons_of_neg l hpa]
      refine ih (fun x hx hpx => hall x (List.mem_cons_of_mem a hx) hpx) ?_
      obtain ⟨x, hx, hpx⟩ := hex
      rcases List.mem_cons.mp hx with rfl | hx2
      · exact absurd hpx hpa
      · exact ⟨x, hx2, hpx⟩

theorem lookupByNameToken_putItem_fresh (item : StoredObject) {db : List StoredObject}
    (hfresh : ∀ r ∈ db, r.token ≠ item.token) :
    lookupByNameToken (putItem db item) item.name item.token = some item := by
  unfold lookupByNameToken queryByName
  apply find?_all_eq
  · intro x hx hpx
    have hx2 := (List.mem_filter.mp hx).1
    rcases mem_putItem hx2 with h | h
    · exact h
    · exact absurd (by simpa using hpx) (hfresh x h)
  · exact ⟨item, List.mem_filter.mpr ⟨self_mem_putItem db item, by simp⟩, by simp⟩

/-- The create body of the `ttlHours = 0` scenario: falsy-but-valid hours and
falsy-but-valid boolean content. -/
def c7Input (nm : String) : CreateInput :=
  { name := some nm, type := some "string", content := some (jbool false),
    ttlHours := some 0, ownerEmail := none, ownerName := none,
    oneTimeAccess := none, enableMFA := none }

/-- C7 amended: create answers 400 exactly when `name` or `type` is missing,
null or empty, or `content` or `ttlHours` is missing or null — so the falsy
values `ttlHours = 0` and `content = false` are accepted — and a create with
`ttlHours = 0` stores an item with `ttl = createdAt` whose immediate read by
the fresh token answers Expired and deletes the record. -/
theorem C7_amended_validation (db : List StoredObject) (now : Int) (iv : List Nat)
    (hiv : ivOk iv) (idR tokR nm : String) (hnm : nm ≠ "") (htok : tokR ≠ "")
    (hfresh : ∀ r ∈ db, r.token ≠ tokR) :
    (∀ (db2 : List StoredObject) (inp : CreateInput) (now2 : Int) (iv2 : List Nat)
        (id2 tok2 : String),
      statusOf (createObject db2 inp now2 iv2 id2 tok2).1 = 400
        ↔ (inp.name = none ∨ inp.name = some "" ∨ inp.type = none ∨ inp.type = some ""
           ∨ inp.content = none ∨ inp.ttlHours = none))
    ∧ createObject db (c7Input nm) now iv idR tokR
      = (ApiResult.created (builtItem (c7Input nm) now iv idR tokR none),
         putItem db (builtItem (c7Input nm) now iv idR tokR none))
    ∧ (builtItem (c7Input nm) now iv idR tokR none).ttl
      = (builtItem (c7Input nm) now iv idR tokR none).createdAt
    ∧ getObject (putItem db (builtItem (c7Input nm) now iv idR tokR none)) (some nm)
        (some tokR) none now iv
      = (ApiResult.gone "Object has expired and has been deleted",
         deleteItem (putItem db (builtItem (c7Input nm) now iv idR tokR none))
           (builtItem (c7Input nm) now iv idR tokR none).id) := by
  have hpart1 : ∀ (db2 : List StoredObject) (inp : CreateInput) (now2 : Int)
      (iv2 : List Nat) (id2 tok2 : String),
      statusOf (createObject db2 inp now2 iv2 id2 tok2).1 = 400
        ↔ (inp.name = none ∨ inp.name = some "" ∨ inp.type = none ∨ inp.type = some ""
           ∨ inp.content = none ∨ inp.ttlHours = none) := by
    intro db2 inp now2 iv2 id2 tok2
    have hiff : (!(jsTruthyStr inp.name) || !(jsTruthyStr inp.type)
          || inp.content.isNone || inp.ttlHours.isNone) = true
        ↔ (inp.name = none ∨ inp.name = some "" ∨ inp.type = none ∨ inp.type = some ""
           ∨ inp.content = none ∨ inp.ttlHours = none) := by
      simp [Bool.or_eq_true, Bool.not_eq_true', jsTruthyStr_eq_false_iff,
        Option.isNone_iff_eq_none, or_assoc]
    unfold createObject
    by_cases hcond : (!(jsTruthyStr inp.name) || !(jsTruthyStr inp.type)
        || inp.content.isNone || inp.ttlHours.isNone) = true
    · rw [if_pos hcond]
      simpa [statusOf] using hiff.mp hcond
    · rw [if_neg hcond]
      have hrhs : ¬(inp.name = none ∨ inp.name = some "" ∨ inp.type = none
          ∨ inp.type = some "" ∨ inp.content = none ∨ inp.ttlHours = none) :=
        fun hr => hcond (hiff.mpr hr)
      by_cases hm : jsTruthyBool inp.enableMFA = true
      · rw [if_pos hm]
        simp [generateTOTPSecret, statusOf, hrhs]
      · rw [if_neg hm]
        simp [statusOf, hrhs]
  have hvalid : (!(jsTruthyStr (c7Input nm).name) || !(jsTruthyStr (c7Input nm).type)
      || (c7Input nm).content.isNone || (c7Input nm).ttlHours.isNone) = false := by
    simp [c7Input, jsTruthyStr, hnm]
  have hcreate : createObject db (c7Input nm) now iv idR tokR
      = (ApiResult.created (builtItem (c7Input nm) now iv idR tokR none),
         putItem db (builtItem (c7Input nm) now iv idR tokR none)) := by
    unfold createObject
    rw [hvalid]
    simp only [Bool.false_eq_true, if_false]
    have hm : jsTruthyBool (c7Input nm).enableMFA = false := by
      simp [c7Input, jsTruthyBool]
    rw [hm]
    simp
  have httl : (builtItem (c7Input nm) now iv idR tokR none).ttl
      = (builtItem (c7Input nm) now iv idR tokR none).createdAt := by
    show now + (some (0 : Int)).getD 0 * 3600000 = now
    simp
  have hlook : lookupByNameToken (putItem db (builtItem (c7Input nm) now iv idR tokR none))
      nm tokR = some (builtItem (c7Input nm) now iv idR tokR none) :=
    lookupByNameToken_putItem_fresh (builtItem (c7Input nm) now iv idR tokR none) hfresh
  have hexp0 : (builtItem (c7Input nm) now iv idR tokR none).ttl ≤ now := by
    show now + (some (0 : Int)).getD 0 * 3600000 ≤ now
    simp
  have hgone : getObject (putItem db (builtItem (c7Input nm) now iv idR tokR none))
      (some nm) (some tokR) none now iv
      = (ApiResult.gone "Object has expired and has been deleted",
         deleteItem (putItem db (builtItem (c7Input nm) now iv idR tokR none))
           (builtItem (c7Input nm) now iv idR tokR none).id) := by
    rw [getObject_found hnm htok hlook, readCore_expired hexp0]
  exact ⟨hpart1, hcreate, httl, hgone⟩

/-- Witness for the C7 theorem: the `ttlHours = 0` create is accepted (201),
its item satisfies `ttl = createdAt`, a missing-content create is rejected,
and the immediate read answers Expired. -/
theorem C7_amended_witness :
    statusOf (createObject [] (c7Input "z") 5 iv16 "x" "t").1 = 201
    ∧ (builtItem (c7Input "z") 5 iv16 "x" "t" none).ttl
      = (builtItem (c7Input "z") 5 iv16 "x" "t" none).createdAt
    ∧ statusOf (createObject []
        { c7Input "z" with content := none } 5 iv16 "x" "t").1 = 400
    ∧ statusOf (getObject (putItem [] (builtItem (c7Input "z") 5 iv16 "x" "t" none))
        (some "z") (some "t") none 5 iv16).1 = 410 := by
  have h := C7_amended_validation [] 5 iv16 (by decide) "x" "t" "z" (by decide)
    (by decide) (by decide)
  refine ⟨by rw [h.2.1]; rfl, h.2.2.1, ?_, by rw [h.2.2.2]; rfl⟩
  exact (h.1 [] { c7Input "z" with content := none } 5 iv16 "x" "t").mpr
    (by simp [c7Input])
